import Mathlib

/-!
adler32_cmp: a verification development

Shallow embedding of `adler32_cmp.c`: the streaming checksum reader
`get_adler32` and the per-file reconciliation loop of `main`.

Modelling conventions.
* A byte is a `Nat`, reduced `% 256` where it is consumed as an `unsigned char`.
* A `uLong` is a `Nat`: the 64-bit `unsigned long` of Linux on x86-64, the
  platform of the tool. The `"%x"` conversions of `printf`/`snprintf`/`sscanf`
  work on `unsigned int`, that is on the value `% 2 ^ 32`; a successful
  `sscanf` stores the 4 bytes of its `unsigned int` into the low half of the
  8-byte `saved_int` (little endian) and leaves the high half as it was.
* The option loop is embedded for command lines on which `getopt` reports no
  unknown option: what follows `case '?': optind = argc;` depends on the
  scanning state inside `getopt` and is left out.
* `regcomp` of the constant pattern succeeds; the pattern only feeds the hint
  of the interactive prompt.
* The operating system is a script: each target carries the result of its
  `open`, the results of its successive `read` calls, the result of its
  `fgetxattr` and of its `fsetxattr`; standard input is a list of bytes.
* Automatic variables that `main` declares without an initialiser (`answ`,
  `computed`, `saved_int`) start with an arbitrary value, a parameter of the
  initial state.
* Every observable action is appended to a trace of events.
-/

namespace Adler32Cmp

/-! ## Constants of the source -/

/-- Block size of one read: `#define BUFSIZE 262144`. -/
def BUFSIZE : Nat := 262144

/-- Size of the text buffer `saved`: `#define ADLSIZE 17`. -/
def ADLSIZE : Nat := 17

/-- Value of `EXIT_SUCCESS` in `<stdlib.h>`. -/
def EXIT_SUCCESS : Nat := 0

/-- Value of `EXIT_FAILURE` in `<stdlib.h>`: the generic failure code. -/
def EXIT_FAILURE : Nat := 1

/-- Exit code of a missing file: `#define ERROR_MISSING_FILE 2`. -/
def ERROR_MISSING_FILE : Nat := 2

/-- Exit code of an I/O error: `#define ERROR_IOERR 3`. -/
def ERROR_IOERR : Nat := 3

/-- Exit code of a mismatch: `#define ERROR_BADCHKSUM 4`. -/
def ERROR_BADCHKSUM : Nat := 4

/-- Value of `ENOENT` in `<errno.h>` (Linux). -/
def ENOENT : Nat := 2

/-- Value of `EIO` in `<errno.h>` (Linux). -/
def EIO : Nat := 5

/-- Value of `EISDIR` in `<errno.h>` (Linux). -/
def EISDIR : Nat := 21

/-- Value of `ERANGE` in `<errno.h>` (Linux). -/
def ERANGE : Nat := 34

/-- Value of `ENOATTR` in `<attr/xattr.h>`, defined there as `ENODATA`. -/
def ENOATTR : Nat := 61

/-! ## Adler-32 (zlib) -/

/-- The modulus of the two sub-sums: the largest prime below `2 ^ 16`. -/
def BASE : Nat := 65521

/-- One byte folded into the pair `(sum1, sum2)`. -/
def adler32_step (s : Nat × Nat) (b : Nat) : Nat × Nat :=
  let sum1 := (s.1 + b % 256) % BASE
  (sum1, (s.2 + sum1) % BASE)

/-- Modelled from the spec: zlib's `adler32(adler, buf, len)`, which is not part
of this repository. The running value is split into its two 16-bit sub-sums,
every byte of the block is folded in modulo 65521, and the result is
`sum2 * 65536 + sum1`. A null buffer (`none`) gives the seed `1`. -/
def adler32 (adler : Nat) (buf : Option (List Nat)) : Nat :=
  match buf with
  | none => 1
  | some bs =>
    let s := bs.foldl adler32_step (adler % 65536, adler / 65536 % 65536)
    s.2 * 65536 + s.1

/-- The Adler-32 checksum of a byte sequence computed in one pass: a single
call of `adler32` on the whole sequence, from the seed. -/
def checksum (S : List Nat) : Nat :=
  adler32 (adler32 0 none) (some S)

/-! ## The checksum reader -/

/-- What one `read(in_file, buffer, BUFSIZE)` call returns: a block of bytes
(an empty block is end of stream) or `-1` with `errno` set. -/
inductive ReadRes where
  | data (bs : List Nat)
  | fail (errno : Nat)
  deriving DecidableEq, Repr

/-- Result of `get_adler32`: the value returned, the caller's `*computed`
afterwards, `errno` afterwards, the number of `read` calls made and the part
of the script that was not consumed. -/
structure AdlerResult where
  ret : Int
  computed : Nat
  errno : Nat
  nreads : Nat
  rest : List ReadRes
  deriving DecidableEq, Repr

/-- The `while ((length = read(...)) > 0)` loop of `get_adler32` together with
the code after it. An exhausted script reads as end of stream (`read`
returns 0). `out` is the caller's `*computed` and `errno` the caller's errno,
both left alone unless the code assigns them. -/
def get_adler32_loop (out errno : Nat) : List ReadRes → Nat → Nat → AdlerResult
  | [], adler, n =>
    -- length == 0: *computed = adler; return(0);
    { ret := 0, computed := adler, errno := errno, nreads := n + 1, rest := [] }
  | ReadRes.data bs :: rest, adler, n =>
    if 0 < bs.length then
      -- adler = adler32(adler, buffer, length);
      get_adler32_loop out errno rest (adler32 adler (some bs)) (n + 1)
    else
      { ret := 0, computed := adler, errno := errno, nreads := n + 1, rest := rest }
  | ReadRes.fail e :: rest, _, n =>
    -- length == -1: return(-1);
    { ret := -1, computed := out, errno := e, nreads := n + 1, rest := rest }

/-- The function `int get_adler32(const int in_file, uLong *computed)`: the
running value starts at `adler32(0L, Z_NULL, 0)`. -/
def get_adler32 (in_file : List ReadRes) (out errno : Nat) : AdlerResult :=
  get_adler32_loop out errno in_file (adler32 0 none) 0

/-! ## Text conversions of libc -/

/-- The lowercase hexadecimal digit of a value below 16, as `"%x"` prints it. -/
def hexdigit (d : Nat) : Char :=
  if d < 10 then Char.ofNat (48 + d) else Char.ofNat (87 + d)

/-- Digit generation of `"%x"`: the digits of `v`, most significant first, in
front of `acc`; at least one digit, no leading zero. The fuel bounds the number
of digits. -/
def fmt_x_aux : Nat → Nat → List Char → List Char
  | 0, _, acc => acc
  | fuel + 1, v, acc =>
    if v / 16 = 0 then hexdigit (v % 16) :: acc
    else fmt_x_aux fuel (v / 16) (hexdigit (v % 16) :: acc)

/-- Text that the conversion `"%x"` of `printf` produces for its `unsigned int`
argument: the argument is taken modulo `2 ^ 32`, which has at most 8
hexadecimal digits. -/
def fmt_x (v : Nat) : List Char :=
  fmt_x_aux 8 (v % 2 ^ 32) []

/-- The call `snprintf(saved, size, "%x", v)`: the string left in the buffer, at
most `size - 1` characters before the terminator. -/
def snprintf_x (size v : Nat) : List Char :=
  (fmt_x v).take (size - 1)

/-- Value of a hexadecimal digit of either case, `none` for any other
character. -/
def hexval (c : Char) : Option Nat :=
  if 48 ≤ c.toNat ∧ c.toNat ≤ 57 then some (c.toNat - 48)
  else if 97 ≤ c.toNat ∧ c.toNat ≤ 102 then some (c.toNat - 87)
  else if 65 ≤ c.toNat ∧ c.toNat ≤ 70 then some (c.toNat - 55)
  else none

/-- White space in the sense of `isspace` in the C locale. -/
def isspace (c : Char) : Bool :=
  c.toNat = 32 || (9 ≤ c.toNat && c.toNat ≤ 13)

/-- Accumulation of the longest run of hexadecimal digits at the head of the
input, base 16, onto `acc`. -/
def scan_digits : List Char → Nat → Nat
  | [], acc => acc
  | c :: cs, acc =>
    match hexval c with
    | some d => scan_digits cs (acc * 16 + d)
    | none => acc

/-- The sign accepted in front of the number: whether it is `-`, and the input
after it. -/
def scan_sign : List Char → Bool × List Char
  | c :: cs => if c = '+' then (false, cs) else if c = '-' then (true, cs) else (false, c :: cs)
  | [] => (false, [])

/-- The base indication `0x` or `0X`: the `0` is kept as a digit and the letter
is dropped. -/
def scan_base : List Char → List Char
  | c :: x :: cs => if c = '0' ∧ (x = 'x' ∨ x = 'X') then c :: cs else c :: x :: cs
  | cs => cs

/-- The call `sscanf(s, "%x", &out)` on the C string `s` (glibc, 64-bit
`unsigned long`): white space is skipped, a sign and a `0x` indication are
accepted, and the longest run of hexadecimal digits is converted as by
`strtoul` (negated for `-`, clamped to `ULONG_MAX` on overflow) and stored as
an `unsigned int`. The result is `none` on a matching failure (no digit, or
end of input), when nothing is stored. -/
def sscanf_x (s : List Char) : Option Nat :=
  let s1 := s.dropWhile isspace
  let sg := scan_sign s1
  match scan_base sg.2 with
  | [] => none
  | c :: cs =>
    match hexval c with
    | none => none
    | some d =>
      let v := scan_digits cs d
      let ul := if 2 ^ 64 ≤ v then 2 ^ 64 - 1 else if sg.1 then (2 ^ 64 - v) % 2 ^ 64 else v
      some (ul % 2 ^ 32)

/-- The store of an `unsigned int` through a pointer to an 8-byte `uLong`
(little endian): the 4 bytes stored replace the low half of the variable and
its high half keeps the value it had. -/
def store_uint (old v : Nat) : Nat :=
  old / 2 ^ 32 * 2 ^ 32 + v % 2 ^ 32

/-- What `sscanf(s, "%x", &out)` leaves in the `uLong` variable `out`: on a
conversion the converted `unsigned int` is stored into its low half, on a
matching failure the variable is left as it was. -/
def sscanf_into (old : Nat) : Option Nat → Nat
  | some v => store_uint old v
  | none => old

/-- The C string that starts a buffer: the characters before the first NUL. -/
def cstring (buf : List Char) : List Char :=
  buf.takeWhile (fun c => c.toNat ≠ 0)

/-- The call `strlen(buf)`. -/
def strlen (buf : List Char) : Nat :=
  (cstring buf).length

/-- A character constant of C, as the `int` it denotes. -/
def chr (c : Char) : Int :=
  (c.toNat : Int)

/-- Segments of a path between slashes. -/
def split_slash : List Char → List (List Char)
  | [] => [[]]
  | c :: cs =>
    if c = '/' then [] :: split_slash cs
    else
      match split_slash cs with
      | [] => [[c]]
      | seg :: segs => (c :: seg) :: segs

/-- The call `regexec(&splitpath, filename, 3, matchptr, 0)` for the pattern
`\([^/]*\)/\([^/]*\)$` compiled at the start of `main`: it matches when the
name has a slash, and then the two groups are the segment before the last slash
and the segment after it. -/
def regexec_splitpath (filename : String) : Option (String × String) :=
  match (split_slash filename.data).reverse with
  | last :: prev :: _ => some (String.mk prev, String.mk last)
  | _ => none

/-! ## The environment of `main` -/

/-- What one `fgetxattr` call finds: the stored bytes of the attribute, or a
failure with its `errno` (`ENOATTR` when the attribute is absent). -/
inductive XattrRes where
  | value (bytes : List Char)
  | fail (errno : Nat)
  deriving DecidableEq, Repr

/-- The call `fgetxattr(in_file, attrname, saved, size)`: the length returned
and the bytes copied into the buffer, or `-1` with `errno`. A value longer than
the buffer fails with `ERANGE`. -/
def fgetxattr (x : XattrRes) (size : Nat) : Except Nat (Nat × List Char) :=
  match x with
  | XattrRes.fail e => Except.error e
  | XattrRes.value bytes =>
    if bytes.length ≤ size then Except.ok (bytes.length, bytes) else Except.error ERANGE

/-- One command-line target with the answers of the operating system for it:
the failure of `open` if any, the results of the successive `read` calls, the
result of `fgetxattr` and the failure of `fsetxattr` if any. -/
structure Target where
  filename : String
  open_errno : Option Nat
  reads : List ReadRes
  xattr : XattrRes
  fsetxattr_errno : Option Nat
  deriving DecidableEq, Repr

/-- The option variables of `main` after the `getopt` loop. -/
structure Flags where
  verbose : Bool
  interactive : Bool
  setchecksum : Bool
  deletebad : Bool
  attrname : String
  deriving DecidableEq, Repr

/-- An argument of a `printf` call, by the conversion that prints it: `%s` of
a string, `%s` of `strerror(errno)`, `%x` of a checksum, `%c` of a character. -/
inductive Arg where
  | str (s : String)
  | strerror (errno : Nat)
  | hex (v : Nat)
  | char (c : Char)
  deriving DecidableEq, Repr

/-- An observable action of the process, in program order: a `printf` or a
`fprintf(stderr, ...)` with its format and arguments, a `perror`, or a call
that reaches the operating system. -/
inductive Event where
  | printf (format : String) (args : List Arg)
  | fprintf_stderr (format : String) (args : List Arg)
  | perror (s : String) (errno : Nat)
  | open (filename : String) (ok : Bool)
  | read
  | getchar
  | unlink (filename : String)
  | fgetxattr (name : String)
  | fsetxattr (name : String) (value : List Char)
  | store_saved (index : Nat)
  | close
  deriving DecidableEq, Repr

/-- The variables of `main` that live across the iterations of the file loop,
the global `errno`, what is left of standard input, and the trace. -/
structure State where
  exitcode : Nat
  answ : Int
  computed : Nat
  saved_int : Nat
  errno : Nat
  stdin : List Nat
  trace : List Event
  deriving DecidableEq, Repr

/-- Append events to the trace. -/
def State.emit (st : State) (es : List Event) : State :=
  { st with trace := st.trace ++ es }

/-- The call `getchar()`: the next byte of standard input, or `EOF` (`-1`). -/
def getchar : List Nat → Int × List Nat
  | [] => (-1, [])
  | c :: rest => ((c % 256 : Nat), rest)

/-- Conversion of an `int` to `char` (signed, 8 bits). -/
def to_char (i : Int) : Int :=
  (i + 128) % 256 - 128

/-- The statement `answ = getchar();`. -/
def read_answ (st : State) : State :=
  let r := getchar st.stdin
  { st with answ := to_char r.1, stdin := r.2, trace := st.trace ++ [Event.getchar] }

/-! ## The body of the file loop -/

/-- Lines 116-123: `open` failed and `errno` holds its error. -/
def on_open_error (fl : Flags) (t : Target) (st : State) : State :=
  let st := { st with
    exitcode := if st.errno = ENOENT then ERROR_MISSING_FILE else EXIT_FAILURE }
  if fl.verbose then
    st.emit [Event.printf "Error opening file: %s\n" [Arg.strerror st.errno]]
  else
    st.emit [Event.fprintf_stderr "Error opening file %s: " [Arg.str t.filename],
      Event.perror "" st.errno]

/-- Lines 128-145: `get_adler32` returned non-zero and `errno` holds the error
of the failed `read`. -/
def on_read_error (fl : Flags) (t : Target) (st : State) : State :=
  let st := { st with exitcode := if st.errno = EIO then ERROR_IOERR else EXIT_FAILURE }
  let st :=
    if st.errno = EIO then
      let st :=
        if fl.interactive then
          let st := { st with answ := chr 'n' }
          let st := st.emit [Event.fprintf_stderr "I/O error: remove the file? [y/N] " []]
          read_answ st
        else st
      if fl.deletebad || st.answ = chr 'y' || st.answ = chr 'Y' then
        st.emit [Event.unlink t.filename]
      else st
    else if st.errno = EISDIR && fl.verbose then
      st.emit [Event.printf "It's a directory, skipping\n" []]
    else
      st.emit [Event.fprintf_stderr "Error reading file %s: " [Arg.str t.filename],
        Event.perror "" st.errno]
  st.emit [Event.close]

/-- Lines 155-161: the hint printed when the file name has two path segments;
the first group is printed one character at a time. -/
def hint (filename : String) : List Event :=
  match regexec_splitpath filename with
  | some (dataset, file) =>
    [Event.printf "you might want to try the following command from a UI:\n" [],
     Event.printf "dq2-list-files " []]
    ++ dataset.data.map (fun c => Event.printf "%c" [Arg.char c])
    ++ [Event.printf " | grep %s\n" [Arg.str file]]
  | none => []

/-- Lines 152-179: `fgetxattr` returned `-1` and `errno` holds its error. -/
def on_xattr_error (fl : Flags) (t : Target) (st : State) : State :=
  let st :=
    if st.errno = ENOATTR && (fl.interactive || fl.setchecksum) then
      let st :=
        if fl.interactive then
          let st := st.emit [Event.printf "No saved checksum: " []]
          let st := st.emit (hint t.filename)
          let st := st.emit [Event.printf
            "set the checksum to the computed value (%x)? [y/N] " [Arg.hex st.computed]]
          read_answ st
        else st
      if st.answ = chr 'y' || fl.setchecksum then
        let saved := snprintf_x ADLSIZE st.computed
        let st := st.emit [Event.fsetxattr fl.attrname (saved.take (strlen saved))]
        match t.fsetxattr_errno with
        | some e =>
          let st := { st with errno := e }
          st.emit [Event.perror "fsetxattr()" st.errno]
        | none => st
      else st
    else if fl.verbose then
      st.emit [Event.printf "error getting saved checksum: %s\n" [Arg.strerror st.errno]]
    else
      st.emit [Event.fprintf_stderr "Error getting saved checksum for file %s: "
        [Arg.str t.filename], Event.perror "" st.errno]
  let st := st.emit [Event.close]
  { st with exitcode := EXIT_FAILURE }

/-- Lines 181-194: `fgetxattr` returned `attrlen` bytes in `saved`. -/
def compare (fl : Flags) (t : Target) (attrlen : Nat) (bytes : List Char) (st : State) :
    State :=
  -- saved[attrlen] = '\000';
  let st := st.emit [Event.store_saved attrlen]
  let saved := cstring bytes
  let st :=
    if fl.verbose then st.emit [Event.printf "Saved checksum: %s\n" [Arg.str (String.mk saved)]]
    else st
  let st := if !fl.verbose then st.emit [Event.printf "%s - " [Arg.str t.filename]] else st
  -- sscanf(saved, "%x", &saved_int);
  let st := { st with saved_int := sscanf_into st.saved_int (sscanf_x saved) }
  let st :=
    if st.computed = st.saved_int then
      st.emit [Event.printf "Checksum verified\n" []]
    else
      let st := st.emit [Event.printf "Checksum mismatch!\n" []]
      { st with exitcode := ERROR_BADCHKSUM }
  st.emit [Event.close]

/-- One iteration of the `for` loop of `main` (lines 112-194). -/
def process_file (fl : Flags) (t : Target) (st : State) : State :=
  let st :=
    if fl.verbose then st.emit [Event.printf "Examining %s\n" [Arg.str t.filename]] else st
  match t.open_errno with
  | some e =>
    let st := { st with errno := e }
    let st := st.emit [Event.open t.filename false]
    on_open_error fl t st
  | none =>
    let st := st.emit [Event.open t.filename true]
    let r := get_adler32 t.reads st.computed st.errno
    let st := { st with computed := r.computed, errno := r.errno }
    let st := st.emit (List.replicate r.nreads Event.read)
    if r.ret ≠ 0 then
      on_read_error fl t st
    else
      let st :=
        if fl.verbose then st.emit [Event.printf "Computed checksum: %x\n" [Arg.hex st.computed]]
        else st
      let st := st.emit [Event.fgetxattr fl.attrname]
      match fgetxattr t.xattr ADLSIZE with
      | Except.error e =>
        let st := { st with errno := e }
        on_xattr_error fl t st
      | Except.ok (attrlen, bytes) =>
        compare fl t attrlen bytes st

/-- Events that one iteration of the file loop appends to the trace. -/
def events_of (fl : Flags) (t : Target) (st : State) : List Event :=
  (process_file fl t st).trace.drop st.trace.length

/-- The `for` loop of `main` over the file arguments. -/
def main_loop (fl : Flags) : List Target → State → State
  | [], st => st
  | t :: ts, st => main_loop fl ts (process_file fl t st)

/-! ## Options and `main` -/

/-- One result of `getopt(argc, argv, "vicdn:")`. -/
inductive Opt where
  | v
  | i
  | c
  | d
  | n (optarg : String)
  deriving DecidableEq, Repr

/-- The `switch` of the option loop, for a recognised option. -/
def set_option_flag (fl : Flags) : Opt → Flags
  | Opt.v => { fl with verbose := true }
  | Opt.i => { fl with interactive := true, verbose := true }
  | Opt.c => { fl with setchecksum := true }
  | Opt.d => { fl with deletebad := true }
  | Opt.n optarg => { fl with attrname := optarg }

/-- The option variables as `main` initialises them. -/
def default_flags : Flags :=
  { verbose := false, interactive := false, setchecksum := false, deletebad := false,
    attrname := "user.storm.checksum.adler32" }

/-- What `main` starts from: the program name, the values that the
uninitialised variables `answ`, `computed` and `saved_int` happen to hold, and
standard input. -/
structure Init where
  argv0 : String
  answ : Int
  computed : Nat
  saved_int : Nat
  stdin : List Nat
  deriving DecidableEq, Repr

/-- The state at the start of the file loop. -/
def initial_state (init : Init) : State :=
  { exitcode := EXIT_SUCCESS, answ := init.answ, computed := init.computed,
    saved_int := init.saved_int, errno := 0, stdin := init.stdin, trace := [] }

/-- The usage exit of `main` (lines 106-109). -/
def usage (init : Init) : State :=
  { initial_state init with
    exitcode := EXIT_FAILURE,
    trace := [Event.fprintf_stderr
      "Usage: %s [-v | -i] [-c] [-d] [-n <attribute_name>] <file> ...\n"
      [Arg.str init.argv0]] }

/-- The function `main`, for recognised options `opts` and the arguments
`files` left after them: the state when `exit` is called, whose `exitcode` is
the exit code of the process. Without a file argument (`optind == argc`) it
takes the usage exit. -/
def main (opts : List Opt) (files : List Target) (init : Init) : State :=
  if files = [] then usage init
  else main_loop (opts.foldl set_option_flag default_flags) files (initial_state init)

/-! ## Notions used to state the properties -/

/-- The verdict line of a verified file. -/
def verified_event : Event := Event.printf "Checksum verified\n" []

/-- The verdict line of a mismatch. -/
def mismatch_event : Event := Event.printf "Checksum mismatch!\n" []

/-- The digits of lowercase hexadecimal text. -/
def lowercase_hex : List Char := "0123456789abcdef".data

/-- Whether an event is a metadata write. -/
def is_fsetxattr : Event → Bool
  | Event.fsetxattr _ _ => true
  | _ => false

/-- Whether an event closes the descriptor. -/
def is_close : Event → Bool
  | Event.close => true
  | _ => false

/-- Whether an event is an `open`, successful or not. -/
def is_open : Event → Bool
  | Event.open _ _ => true
  | _ => false

/-- Whether an event is a deletion. -/
def is_unlink : Event → Bool
  | Event.unlink _ => true
  | _ => false

/-- Whether an event writes a message, on either stream. -/
def is_message : Event → Bool
  | Event.printf _ _ => true
  | Event.fprintf_stderr _ _ => true
  | Event.perror _ _ => true
  | _ => false

/-- Whether an event acquires or releases a descriptor: an `open` or a
`close`. -/
def is_descriptor_event (ev : Event) : Bool :=
  is_open ev || is_close ev

/-- The descriptor events that the scoping of the handle asks of one target:
a successful `open` followed by one `close`, or a failed `open` alone. -/
def descriptor_events (t : Target) : List Event :=
  if t.open_errno = none then [Event.open t.filename true, Event.close]
  else [Event.open t.filename false]

/-- Whether an index lies inside the buffer `char saved[ADLSIZE]`. -/
def in_saved (index : Nat) : Bool :=
  decide (index < ADLSIZE)

/-- The script of a file of content `S` that is read to its end: non-empty
blocks whose concatenation is `S`, after which the script is exhausted or
continues with a zero-byte read. -/
def reads_content (reads : List ReadRes) (S : List Nat) : Prop :=
  ∃ blocks : List (List Nat), blocks.flatten = S ∧ (∀ b ∈ blocks, b ≠ []) ∧
    (reads = blocks.map ReadRes.data ∨
      ∃ rest, reads = blocks.map ReadRes.data ++ ReadRes.data [] :: rest)

/-- Exit code of one target as the specification lists them: none for a
verified target, 4 for a mismatch, 2 for a missing file, 3 for an I/O read
error and the generic failure code for any other failure. -/
def target_exit_code (fl : Flags) (t : Target) (st : State) : Option Nat :=
  if verified_event ∈ events_of fl t st then none
  else if mismatch_event ∈ events_of fl t st then some 4
  else if t.open_errno = some ENOENT then some 2
  else if t.open_errno = none ∧ (get_adler32 t.reads st.computed st.errno).ret ≠ 0 ∧
      (get_adler32 t.reads st.computed st.errno).errno = EIO then some 3
  else some EXIT_FAILURE

/-- The targets of a run, each with the state in which the file loop reaches
it. -/
def run_states (fl : Flags) : List Target → State → List (Target × State)
  | [], _ => []
  | t :: ts, st => (t, st) :: run_states fl ts (process_file fl t st)

/-- A sample target: the file `a.txt` of content 1, 2, 3, read in two blocks,
whose attribute holds the text of its checksum. -/
def sample_target : Target :=
  { filename := "a.txt", open_errno := none,
    reads := [ReadRes.data [1, 2], ReadRes.data [3]],
    xattr := XattrRes.value (fmt_x (checksum [1, 2, 3])), fsetxattr_errno := none }

/-- The sample target with the stored text `1` instead. -/
def sample_mismatch : Target :=
  { sample_target with xattr := XattrRes.value ['1'] }

/-- The sample target when the file does not exist. -/
def sample_missing : Target :=
  { sample_target with open_errno := some ENOENT }

/-- The sample target when the attribute is absent. -/
def sample_absent : Target :=
  { sample_target with xattr := XattrRes.fail ENOATTR }

/-- The sample target when its first read fails with `EIO`. -/
def sample_ioerr : Target :=
  { sample_target with reads := [ReadRes.fail EIO] }

/-- The sample target when it is a directory: its first read fails with
`EISDIR`. -/
def sample_directory : Target :=
  { sample_target with reads := [ReadRes.fail EISDIR] }

/-- The sample target when its attribute holds the empty text. -/
def sample_empty_text : Target :=
  { sample_target with xattr := XattrRes.value [] }

/-- The sample target when its attribute holds 17 bytes, the text
`00000000000000007` of sixteen zeros and a seven. -/
def sample_long_text : Target :=
  { sample_target with xattr := XattrRes.value (List.replicate 16 '0' ++ ['7']) }

/-- A sample start of `main`: zeroed variables and an empty standard input. -/
def sample_init : Init :=
  { argv0 := "adler32_cmp", answ := 0, computed := 0, saved_int := 0, stdin := [] }

/-! ## Lemmas on Adler-32 -/

theorem adler32_step_lt (s : Nat × Nat) (b : Nat) :
    (adler32_step s b).1 < 65536 ∧ (adler32_step s b).2 < 65536 := by
  have h1 : (s.1 + b % 256) % 65521 < 65521 := Nat.mod_lt _ (by norm_num)
  have h2 : (s.2 + (s.1 + b % 256) % 65521) % 65521 < 65521 := Nat.mod_lt _ (by norm_num)
  simp only [adler32_step, BASE]
  omega

theorem adler32_foldl_lt (bs : List Nat) (s : Nat × Nat)
    (h1 : s.1 < 65536) (h2 : s.2 < 65536) :
    (bs.foldl adler32_step s).1 < 65536 ∧ (bs.foldl adler32_step s).2 < 65536 := by
  induction bs generalizing s with
  | nil => exact ⟨h1, h2⟩
  | cons b bs ih =>
    simp only [List.foldl_cons]
    exact ih _ (adler32_step_lt s b).1 (adler32_step_lt s b).2

/-- A value returned by `adler32` fits in 32 bits. -/
theorem adler32_lt (adler : Nat) (buf : Option (List Nat)) :
    adler32 adler buf < 2 ^ 32 := by
  cases buf with
  | none => simp [adler32]
  | some bs =>
    have h := adler32_foldl_lt bs (adler % 65536, adler / 65536 % 65536)
      (Nat.mod_lt _ (by norm_num)) (Nat.mod_lt _ (by norm_num))
    simp only [adler32]
    omega

/-- Folding a second block into the value of a first block is folding their
concatenation. -/
theorem adler32_append (adler : Nat) (b1 b2 : List Nat) :
    adler32 (adler32 adler (some b1)) (some b2) = adler32 adler (some (b1 ++ b2)) := by
  have h := adler32_foldl_lt b1 (adler % 65536, adler / 65536 % 65536)
    (Nat.mod_lt _ (by norm_num)) (Nat.mod_lt _ (by norm_num))
  simp only [adler32, List.foldl_append]
  have e1 : ((List.foldl adler32_step (adler % 65536, adler / 65536 % 65536) b1).2 * 65536 +
      (List.foldl adler32_step (adler % 65536, adler / 65536 % 65536) b1).1) % 65536 =
      (List.foldl adler32_step (adler % 65536, adler / 65536 % 65536) b1).1 := by omega
  have e2 : ((List.foldl adler32_step (adler % 65536, adler / 65536 % 65536) b1).2 * 65536 +
      (List.foldl adler32_step (adler % 65536, adler / 65536 % 65536) b1).1) / 65536 % 65536 =
      (List.foldl adler32_step (adler % 65536, adler / 65536 % 65536) b1).2 := by omega
  rw [e1, e2]

/-- The seed is a fixed point of folding the empty block. -/
theorem adler32_seed_nil : adler32 (adler32 0 none) (some []) = adler32 0 none := by
  simp [adler32]

/-- Folding the empty block leaves a 32-bit value as it is. -/
theorem adler32_nil_of_lt (adler : Nat) (h : adler < 2 ^ 32) :
    adler32 adler (some []) = adler := by
  simp only [adler32, List.foldl_nil]
  omega

/-- The loop on a script of non-empty blocks followed by `tail`, where `tail`
is exhausted or starts with a zero-byte read. -/
theorem get_adler32_loop_blocks (out errno : Nat) (blocks : List (List Nat))
    (hne : ∀ b ∈ blocks, b ≠ []) (adler n : Nat) (hA : adler < 2 ^ 32) :
    get_adler32_loop out errno (blocks.map ReadRes.data) adler n =
      { ret := 0, computed := adler32 adler (some blocks.flatten), errno := errno,
        nreads := n + blocks.length + 1, rest := [] } ∧
    ∀ rest, get_adler32_loop out errno (blocks.map ReadRes.data ++ ReadRes.data [] :: rest)
        adler n =
      { ret := 0, computed := adler32 adler (some blocks.flatten), errno := errno,
        nreads := n + blocks.length + 1, rest := rest } := by
  induction blocks generalizing adler n with
  | nil => simp [get_adler32_loop, adler32_nil_of_lt adler hA]
  | cons b bs ih =>
    have hb : 0 < b.length := List.length_pos.mpr (hne b (List.mem_cons_self _ _))
    have ih2 := ih (fun c hc => hne c (List.mem_cons_of_mem _ hc)) (adler32 adler (some b)) (n + 1)
      (adler32_lt _ _)
    refine ⟨?_, fun rest => ?_⟩
    · simp only [List.map_cons, get_adler32_loop, hb, if_true, List.flatten_cons,
        List.length_cons]
      rw [ih2.1, adler32_append]
      simp only [AdlerResult.mk.injEq, true_and, and_true]
      omega
    · simp only [List.map_cons, List.cons_append, get_adler32_loop, hb, if_true,
        List.flatten_cons, List.length_cons, List.append_eq]
      rw [ih2.2 rest, adler32_append]
      simp only [AdlerResult.mk.injEq, true_and, and_true]
      omega

/-- Folding the blocks one after another is folding their concatenation. -/
theorem adler32_foldl_blocks (blocks : List (List Nat)) (adler : Nat) (hA : adler < 2 ^ 32) :
    blocks.foldl (fun a b => adler32 a (some b)) adler = adler32 adler (some blocks.flatten) := by
  induction blocks generalizing adler with
  | nil => simp [adler32_nil_of_lt adler hA]
  | cons b bs ih =>
    simp only [List.foldl_cons, List.flatten_cons]
    rw [ih _ (adler32_lt _ _), adler32_append]

/-! ## Lemmas on the text conversions -/

theorem hexval_hexdigit (d : Nat) (h : d < 16) : hexval (hexdigit d) = some d := by
  interval_cases d <;> rfl

theorem hexdigit_facts (d : Nat) (h : d < 16) :
    isspace (hexdigit d) = false ∧ hexdigit d ≠ '+' ∧ hexdigit d ≠ '-' ∧
      hexdigit d ≠ 'x' ∧ hexdigit d ≠ 'X' ∧ (hexdigit d).toNat ≠ 0 := by
  interval_cases d <;> decide

/-- The digits are put in front of the accumulator. -/
theorem fmt_x_aux_acc (fuel v : Nat) (acc : List Char) :
    fmt_x_aux fuel v acc = fmt_x_aux fuel v [] ++ acc := by
  induction fuel generalizing v acc with
  | zero => simp [fmt_x_aux]
  | succ fuel ih =>
    simp only [fmt_x_aux]
    split
    · simp
    · rw [ih (v / 16) (hexdigit (v % 16) :: acc), ih (v / 16) [hexdigit (v % 16)]]
      simp

/-- At most `fuel` digits are produced. -/
theorem fmt_x_aux_length (fuel v : Nat) : (fmt_x_aux fuel v []).length ≤ fuel := by
  induction fuel generalizing v with
  | zero => simp [fmt_x_aux]
  | succ fuel ih =>
    simp only [fmt_x_aux]
    split
    · simp
    · rw [fmt_x_aux_acc]
      have := ih (v / 16)
      simp only [List.length_append, List.length_singleton]
      omega

/-- Every character produced is a hexadecimal digit. -/
theorem fmt_x_aux_digits (fuel v : Nat) :
    ∀ c ∈ fmt_x_aux fuel v [], ∃ d, d < 16 ∧ c = hexdigit d := by
  induction fuel generalizing v with
  | zero => simp [fmt_x_aux]
  | succ fuel ih =>
    intro c hc
    simp only [fmt_x_aux] at hc
    split at hc
    · simp only [List.mem_singleton] at hc
      exact ⟨v % 16, Nat.mod_lt _ (by norm_num), hc⟩
    · rw [fmt_x_aux_acc] at hc
      rcases List.mem_append.mp hc with h | h
      · exact ih _ c h
      · simp only [List.mem_singleton] at h
        exact ⟨v % 16, Nat.mod_lt _ (by norm_num), h⟩

/-- With fuel, at least one digit is produced. -/
theorem fmt_x_aux_ne_nil (fuel v : Nat) : fmt_x_aux (fuel + 1) v [] ≠ [] := by
  simp only [fmt_x_aux]
  split
  · simp
  · rw [fmt_x_aux_acc]
    simp

/-- Scanning the digits of `v` from an empty accumulator gives `v`. -/
theorem scan_digits_fmt_x_aux (fuel v : Nat) (h : v < 16 ^ fuel) (rest : List Char) :
    scan_digits (fmt_x_aux fuel v [] ++ rest) 0 = scan_digits rest v := by
  induction fuel generalizing v rest with
  | zero =>
    have hv : v = 0 := by simpa using h
    simp [fmt_x_aux, hv]
  | succ fuel ih =>
    have hd := hexval_hexdigit (v % 16) (Nat.mod_lt _ (by norm_num))
    simp only [fmt_x_aux]
    split
    · rename_i h0
      simp only [List.singleton_append, scan_digits, hd]
      congr 1
      omega
    · rw [fmt_x_aux_acc, List.append_assoc, ih (v / 16) (by rw [pow_succ] at h; omega)]
      simp only [List.singleton_append, scan_digits, hd]
      congr 1
      omega

/-- A `scan_digits` from the value of a first digit is a scan from zero. -/
theorem scan_digits_cons (c : Char) (cs : List Char) (d : Nat) (h : hexval c = some d) :
    scan_digits cs d = scan_digits (c :: cs) 0 := by
  simp [scan_digits, h]

/-- Parsing a non-empty run of hexadecimal digits that denotes `v`. -/
theorem sscanf_x_digits (l : List Char) (hne : l ≠ [])
    (hdig : ∀ c ∈ l, ∃ d, d < 16 ∧ c = hexdigit d) :
    sscanf_x l = some ((if 2 ^ 64 ≤ scan_digits l 0 then 2 ^ 64 - 1 else scan_digits l 0)
      % 2 ^ 32) := by
  cases l with
  | nil => exact absurd rfl hne
  | cons c cs =>
    obtain ⟨d, hd, rfl⟩ := hdig c (List.mem_cons_self _ _)
    have hf := hexdigit_facts d hd
    have hv := hexval_hexdigit d hd
    have hsign : scan_sign (hexdigit d :: cs) = (false, hexdigit d :: cs) := by
      simp [scan_sign, hf.2.1, hf.2.2.1]
    have hpre : scan_base (hexdigit d :: cs) = hexdigit d :: cs := by
      cases cs with
      | nil => rfl
      | cons x xs =>
        obtain ⟨e, he, rfl⟩ := hdig x (List.mem_cons_of_mem _ (List.mem_cons_self _ _))
        have hx := hexdigit_facts e he
        simp [scan_base, hx.2.2.2.1, hx.2.2.2.2.1]
    have hdrop : List.dropWhile isspace (hexdigit d :: cs) = hexdigit d :: cs := by
      simp [List.dropWhile, hf.1]
    simp only [sscanf_x, hdrop, hsign, hpre, hv]
    rw [scan_digits_cons _ cs d hv]
    simp

/-- Text of `"%x"` parsed back by `"%x"`. -/
theorem sscanf_x_fmt_x (v : Nat) : sscanf_x (fmt_x v) = some (v % 2 ^ 32) := by
  have hlt : v % 2 ^ 32 < 2 ^ 32 := Nat.mod_lt _ (by norm_num)
  have hs : scan_digits (fmt_x v) 0 = v % 2 ^ 32 := by
    have := scan_digits_fmt_x_aux 8 (v % 2 ^ 32) (by norm_num; omega) []
    simpa [fmt_x, scan_digits] using this
  rw [sscanf_x_digits (fmt_x v) (fmt_x_aux_ne_nil 7 _) (fmt_x_aux_digits 8 _), hs]
  have : ¬ 2 ^ 64 ≤ v % 2 ^ 32 := by omega
  rw [if_neg this, Nat.mod_mod]

/-- The text of `"%x"` has at most 8 characters. -/
theorem fmt_x_length (v : Nat) : (fmt_x v).length ≤ 8 := fmt_x_aux_length 8 _

/-- The text of `"%x"` has no NUL, so it is its own C string. -/
theorem cstring_fmt_x (v : Nat) : cstring (fmt_x v) = fmt_x v := by
  unfold cstring
  rw [List.takeWhile_eq_self_iff]
  intro c hc
  obtain ⟨d, hd, rfl⟩ := fmt_x_aux_digits 8 _ c hc
  simpa using (hexdigit_facts d hd).2.2.2.2.2

/-- The buffer of 17 bytes holds the whole text. -/
theorem snprintf_x_ADLSIZE (v : Nat) : snprintf_x ADLSIZE v = fmt_x v := by
  have := fmt_x_length v
  simp only [snprintf_x, ADLSIZE]
  exact List.take_of_length_le (by omega)

/-- What `fsetxattr` is given after the `snprintf`: the whole text. -/
theorem written_text (v : Nat) :
    (snprintf_x ADLSIZE v).take (strlen (snprintf_x ADLSIZE v)) = fmt_x v := by
  rw [snprintf_x_ADLSIZE, strlen, cstring_fmt_x]
  exact List.take_of_length_le (le_refl _)

/-- A value converted by `sscanf` with `"%x"` fits in 32 bits. -/
theorem sscanf_x_lt (s : List Char) (v : Nat) (h : sscanf_x s = some v) : v < 2 ^ 32 := by
  simp only [sscanf_x] at h
  split at h
  · simp at h
  · split at h
    · simp at h
    · simp only [Option.some.injEq] at h
      rw [← h]
      exact Nat.mod_lt _ (by norm_num)

/-- A 32-bit value equals the variable after the 4-byte store exactly when
the high half of the variable was zero and the value is the one stored. -/
theorem store_uint_eq_iff (old v c : Nat) (hc : c < 2 ^ 32) (hv : v < 2 ^ 32) :
    c = store_uint old v ↔ old < 2 ^ 32 ∧ c = v := by
  unfold store_uint
  rw [Nat.mod_eq_of_lt hv]
  constructor
  · intro h
    have hq : old / 2 ^ 32 = 0 := by
      by_contra hne
      have : 1 ≤ old / 2 ^ 32 := Nat.one_le_iff_ne_zero.mpr hne
      have : 2 ^ 32 ≤ old / 2 ^ 32 * 2 ^ 32 := Nat.le_mul_of_pos_left _ this
      omega
    refine ⟨?_, by rw [h, hq]; simp⟩
    exact (Nat.div_eq_zero_iff (by norm_num : 0 < 2 ^ 32)).mp hq
  · rintro ⟨hold, rfl⟩
    rw [Nat.div_eq_of_lt hold]
    simp

/-! ## Lemmas on the file loop -/

/-- A file read to its end gives its one-pass checksum. -/
theorem get_adler32_of_reads_content (reads : List ReadRes) (S : List Nat)
    (h : reads_content reads S) (out errno : Nat) :
    ∃ n rest, get_adler32 reads out errno =
      { ret := 0, computed := checksum S, errno := errno, nreads := n, rest := rest } := by
  obtain ⟨blocks, hS, hne, hr⟩ := h
  have hl := get_adler32_loop_blocks out errno blocks hne (adler32 0 none) 0 (adler32_lt _ _)
  rcases hr with hr | ⟨rest, hr⟩
  · exact ⟨_, _, by rw [hr, get_adler32, hl.1, checksum, hS]⟩
  · exact ⟨_, _, by rw [hr, get_adler32, hl.2 rest, checksum, hS]⟩

theorem main_loop_append (fl : Flags) (pre post : List Target) (st : State) :
    main_loop fl (pre ++ post) st = main_loop fl post (main_loop fl pre st) := by
  induction pre generalizing st with
  | nil => rfl
  | cons t ts ih => simp [main_loop, ih]

/-- The checksum of a byte sequence fits in 32 bits. -/
theorem checksum_lt (S : List Nat) : checksum S < 2 ^ 32 := adler32_lt _ _

/-- The lookup returns the text of `"%x"` whole. -/
theorem fgetxattr_fmt_x (v : Nat) :
    fgetxattr (XattrRes.value (fmt_x v)) ADLSIZE = Except.ok ((fmt_x v).length, fmt_x v) := by
  have := fmt_x_length v
  simp only [fgetxattr, ADLSIZE]
  rw [if_pos (by omega)]

/-- A checksum that `get_adler32` stores fits in 32 bits. -/
theorem get_adler32_loop_lt (out errno : Nat) (reads : List ReadRes) (adler n : Nat)
    (hA : adler < 2 ^ 32) (h : (get_adler32_loop out errno reads adler n).ret = 0) :
    (get_adler32_loop out errno reads adler n).computed < 2 ^ 32 := by
  induction reads generalizing adler n with
  | nil => simpa [get_adler32_loop] using hA
  | cons r rest ih =>
    cases r with
    | data bs =>
      simp only [get_adler32_loop] at h ⊢
      split
      · rename_i hb
        rw [if_pos hb] at h
        exact ih _ _ (adler32_lt _ _) h
      · exact hA
    | fail e => simp [get_adler32_loop] at h

theorem get_adler32_lt (reads : List ReadRes) (out errno : Nat)
    (h : (get_adler32 reads out errno).ret = 0) :
    (get_adler32 reads out errno).computed < 2 ^ 32 :=
  get_adler32_loop_lt out errno reads _ 0 (adler32_lt _ _) h

/-- The digits of `"%x"` are lowercase. -/
theorem hexdigit_lowercase (d : Nat) (h : d < 16) :
    hexdigit d ∈ lowercase_hex := by
  interval_cases d <;> decide

theorem fmt_x_lowercase (v : Nat) :
    ∀ ch ∈ fmt_x v,
      ch ∈ lowercase_hex := by
  intro ch hch
  obtain ⟨d, hd, rfl⟩ := fmt_x_aux_digits 8 _ ch hch
  exact hexdigit_lowercase d hd

/-- The digits of `"%x"` denote the value, for a value of 32 bits. -/
theorem scan_digits_fmt_x (v : Nat) (h : v < 2 ^ 32) : scan_digits (fmt_x v) 0 = v := by
  have := scan_digits_fmt_x_aux 8 v (by norm_num; omega) []
  unfold fmt_x
  rw [Nat.mod_eq_of_lt h]
  simpa [scan_digits] using this

/-- The hint only prints on standard output. -/
theorem hint_printf (filename : String) :
    ∀ ev ∈ hint filename, ∃ format args, ev = Event.printf format args := by
  intro ev hev
  unfold hint at hev
  split at hev
  · simp only [List.mem_append, List.mem_cons, List.mem_map, List.mem_singleton,
      List.not_mem_nil, or_false] at hev
    rcases hev with ((h | h) | ⟨c, _, h⟩) | h
    · exact ⟨_, _, h⟩
    · exact ⟨_, _, h⟩
    · exact ⟨_, _, h.symm⟩
    · exact ⟨_, _, h⟩
  · simp at hev

theorem hint_no_fsetxattr (filename name : String) (value : List Char) :
    Event.fsetxattr name value ∉ hint filename := by
  intro h
  obtain ⟨_, _, h2⟩ := hint_printf filename _ h
  cases h2

theorem hint_filter_fsetxattr (filename : String) :
    (hint filename).filter is_fsetxattr = [] := by
  rw [List.filter_eq_nil_iff]
  intro ev h
  obtain ⟨_, _, rfl⟩ := hint_printf filename _ h
  simp [is_fsetxattr]

theorem replicate_read_filter_fsetxattr (n : Nat) :
    (List.replicate n Event.read).filter is_fsetxattr = [] := by
  rw [List.filter_eq_nil_iff]
  intro ev h
  rw [(List.mem_replicate.mp h).2]
  simp [is_fsetxattr]

/-- The hint prints no verdict. -/
theorem hint_no_verdict (filename : String) :
    verified_event ∉ hint filename ∧ mismatch_event ∉ hint filename := by
  constructor <;>
  · intro h
    unfold hint at h
    split at h
    · simp [verified_event, mismatch_event] at h
    · simp at h

/-- The events of an iteration, from the trace after it. -/
theorem events_of_eq (fl : Flags) (t : Target) (st : State) (es : List Event)
    (h : (process_file fl t st).trace = st.trace ++ es) : events_of fl t st = es := by
  simp [events_of, h]

/-- The iteration of a target whose `open` fails. -/
theorem open_error_step (fl : Flags) (t : Target) (st : State) (e : Nat)
    (ho : t.open_errno = some e) :
    (process_file fl t st).exitcode
      = (if e = ENOENT then ERROR_MISSING_FILE else EXIT_FAILURE) ∧
    verified_event ∉ events_of fl t st ∧ mismatch_event ∉ events_of fl t st := by
  rcases fl with ⟨v, i, c, d, name⟩
  cases v <;>
    simp [events_of, process_file, ho, on_open_error, State.emit, verified_event,
      mismatch_event]

/-- The iteration of a target whose read fails. -/
theorem read_error_step (fl : Flags) (t : Target) (st : State)
    (ho : t.open_errno = none)
    (hret : (get_adler32 t.reads st.computed st.errno).ret ≠ 0) :
    (process_file fl t st).exitcode =
      (if (get_adler32 t.reads st.computed st.errno).errno = EIO then ERROR_IOERR
        else EXIT_FAILURE) ∧
    ∃ es, (process_file fl t st).trace = st.trace ++ es ∧
      verified_event ∉ es ∧ mismatch_event ∉ es := by
  rcases hr : get_adler32 t.reads st.computed st.errno with ⟨ret, comp, e, n, rest⟩
  rw [hr] at hret
  simp only at hret
  rcases fl with ⟨v, i, c, d, name⟩
  refine ⟨?_, ?_⟩
  · cases v <;> cases i <;> cases d <;>
      simp only [process_file, ho, hr, hret, on_read_error, State.emit, read_answ,
        Bool.false_eq_true, if_false, if_true, ne_eq, not_false_eq_true,
        Bool.and_false, Bool.and_true, Bool.false_or, Bool.true_or, decide_eq_true_eq,
        Bool.or_eq_true] <;>
      split_ifs <;> rfl
  · cases v <;> cases i <;> cases d <;>
      simp only [process_file, ho, hr, hret, on_read_error, State.emit, read_answ,
        Bool.false_eq_true, if_false, if_true, ne_eq, not_false_eq_true,
        Bool.and_false, Bool.and_true, Bool.false_or, Bool.true_or, decide_eq_true_eq,
        Bool.or_eq_true] <;>
      split_ifs <;>
      exact ⟨_, by simp only [List.append_assoc]; rfl, by simp [verified_event],
        by simp [mismatch_event]⟩

/-- The iteration of a target whose lookup fails. -/
theorem xattr_error_step (fl : Flags) (t : Target) (st : State) (e : Nat)
    (ho : t.open_errno = none)
    (hret : (get_adler32 t.reads st.computed st.errno).ret = 0)
    (hx : fgetxattr t.xattr ADLSIZE = Except.error e) :
    (process_file fl t st).exitcode = EXIT_FAILURE ∧
    ∃ es, (process_file fl t st).trace = st.trace ++ es ∧
      verified_event ∉ es ∧ mismatch_event ∉ es := by
  rcases hr : get_adler32 t.reads st.computed st.errno with ⟨ret, comp, er, n, rest⟩
  rw [hr] at hret
  simp only at hret
  subst hret
  have hh := hint_no_verdict t.filename
  simp only [verified_event, mismatch_event] at hh
  rcases fl with ⟨v, i, c, d, name⟩
  refine ⟨?_, ?_⟩
  · cases v <;> simp [process_file, ho, hr, hx, on_xattr_error, State.emit]
  · rcases hs : t.fsetxattr_errno with _ | e2 <;>
    cases v <;> cases i <;> cases c <;>
      simp only [process_file, ho, hr, hx, hs, on_xattr_error, State.emit, read_answ,
        Bool.false_eq_true, if_false, if_true, ne_eq, not_false_eq_true, not_true_eq_false,
        Bool.and_false, Bool.and_true, Bool.false_or, Bool.true_or, Bool.or_false, Bool.or_true,
        decide_eq_true_eq, Bool.or_eq_true] <;>
      (try split_ifs) <;>
      exact ⟨_, by simp only [List.append_assoc]; rfl, by simp [verified_event, hh.1],
        by simp [mismatch_event, hh.2]⟩

/-- The iteration of a target whose lookup succeeds. -/
theorem compare_step (fl : Flags) (t : Target) (st : State) (attrlen : Nat)
    (bytes : List Char)
    (ho : t.open_errno = none)
    (hret : (get_adler32 t.reads st.computed st.errno).ret = 0)
    (hx : fgetxattr t.xattr ADLSIZE = Except.ok (attrlen, bytes)) :
    (process_file fl t st).exitcode =
      (if (get_adler32 t.reads st.computed st.errno).computed
          = sscanf_into st.saved_int (sscanf_x (cstring bytes))
        then st.exitcode else ERROR_BADCHKSUM) ∧
    (verified_event ∈ events_of fl t st ↔
      (get_adler32 t.reads st.computed st.errno).computed
        = sscanf_into st.saved_int (sscanf_x (cstring bytes))) ∧
    (mismatch_event ∈ events_of fl t st ↔
      (get_adler32 t.reads st.computed st.errno).computed
        ≠ sscanf_into st.saved_int (sscanf_x (cstring bytes))) := by
  rcases hr : get_adler32 t.reads st.computed st.errno with ⟨ret, comp, er, n, rest⟩
  rw [hr] at hret
  simp only at hret
  subst hret
  rcases fl with ⟨v, i, c, d, name⟩
  by_cases hc : comp = sscanf_into st.saved_int (sscanf_x (cstring bytes)) <;> cases v <;>
    simp [events_of, process_file, ho, hr, hx, compare, hc, State.emit, verified_event,
      mismatch_event]

/-- The exit code after one iteration is the code of the target, or the code
before it when the target verified; the code of a target is never 0. -/
theorem process_file_exitcode (fl : Flags) (t : Target) (st : State) :
    (process_file fl t st).exitcode = (target_exit_code fl t st).getD st.exitcode ∧
    (∀ c, target_exit_code fl t st = some c → c = 2 ∨ c = 3 ∨ c = 4 ∨ c = EXIT_FAILURE) ∧
    (target_exit_code fl t st = none ↔ verified_event ∈ events_of fl t st) := by
  rcases ho : t.open_errno with _ | eo
  · by_cases hret : (get_adler32 t.reads st.computed st.errno).ret = 0
    · rcases hx : fgetxattr t.xattr ADLSIZE with ex | ⟨len, bytes⟩
      · obtain ⟨h1, es, h2, h3, h4⟩ := xattr_error_step fl t st ex ho hret hx
        rw [← events_of_eq fl t st es h2] at h3 h4
        simp [target_exit_code, h1, h3, h4, ho, hret]
      · obtain ⟨h1, h2, h3⟩ := compare_step fl t st len bytes ho hret hx
        by_cases hc : (get_adler32 t.reads st.computed st.errno).computed
            = sscanf_into st.saved_int (sscanf_x (cstring bytes))
        · simp [target_exit_code, h1, h2, h3, hc]
        · simp [target_exit_code, h1, h2, h3, hc, ERROR_BADCHKSUM]
    · obtain ⟨h1, es, h2, h3, h4⟩ := read_error_step fl t st ho hret
      rw [← events_of_eq fl t st es h2] at h3 h4
      by_cases he : (get_adler32 t.reads st.computed st.errno).errno = EIO
      · simp [target_exit_code, h1, h3, h4, ho, hret, he, ERROR_IOERR]
      · simp [target_exit_code, h1, h3, h4, ho, hret, he]
  · obtain ⟨h1, h3, h4⟩ := open_error_step fl t st eo ho
    by_cases he : eo = ENOENT
    · simp [target_exit_code, h1, h3, h4, ho, he, ERROR_MISSING_FILE]
    · simp [target_exit_code, h1, h3, h4, ho, he]


/-- The last element of a list of codes in front of which one is put. -/
theorem getLast_getD_cons (c a : Nat) (l : List Nat) :
    ((c :: l).getLast?).getD a = (l.getLast?).getD c := by
  cases l with
  | nil => rfl
  | cons b l => simp [List.getLast?_cons_cons, List.getLast?_eq_getLast]

/-- The exit code after the loop is the code of the last failing target, or
the code before the loop when no target fails. -/
theorem main_loop_exitcode (fl : Flags) (ts : List Target) (st : State) :
    (main_loop fl ts st).exitcode =
      (((run_states fl ts st).filterMap (fun p => target_exit_code fl p.1 p.2)).getLast?).getD
        st.exitcode := by
  induction ts generalizing st with
  | nil => rfl
  | cons t ts ih =>
    simp only [main_loop, run_states, List.filterMap_cons]
    rw [ih, (process_file_exitcode fl t st).1]
    cases h : target_exit_code fl t st with
    | none => rfl
    | some c => simp only [Option.getD_some]; rw [getLast_getD_cons]

/-- What the code does on an I/O read error, in general: the exit code is 3,
and the file is deleted exactly when `deletebad` is set or `answ` holds `y` or
`Y`, where `answ` is the operator's answer in interactive mode and the value
it had before the iteration otherwise. -/
theorem io_error_unlink_iff (fl : Flags) (t : Target) (st : State)
    (ho : t.open_errno = none)
    (hret : (get_adler32 t.reads st.computed st.errno).ret ≠ 0)
    (hio : (get_adler32 t.reads st.computed st.errno).errno = EIO) :
    (process_file fl t st).exitcode = 3 ∧
    (Event.unlink t.filename ∈ events_of fl t st ↔
      fl.deletebad = true ∨
      (if fl.interactive then to_char (getchar st.stdin).1 else st.answ) = chr 'y' ∨
      (if fl.interactive then to_char (getchar st.stdin).1 else st.answ) = chr 'Y') := by
  have hexit := (read_error_step fl t st ho hret).1
  rw [if_pos hio] at hexit
  refine ⟨hexit, ?_⟩
  rcases hr : get_adler32 t.reads st.computed st.errno with ⟨ret, comp, e, n, rest⟩
  rw [hr] at hret hio
  simp only at hret hio
  subst hio
  rcases fl with ⟨v, i, c, d, name⟩
  cases v <;> cases i <;> cases d <;>
      simp only [events_of, process_file, ho, hr, hret, on_read_error, State.emit, read_answ,
        Bool.false_eq_true, if_false, if_true, ne_eq, not_false_eq_true,
        Bool.and_false, Bool.and_true, Bool.false_or, Bool.true_or, decide_eq_true_eq,
        Bool.or_eq_true] <;>
      (try split_ifs) <;> simp_all


/-- What the code does for an absent attribute in interactive mode, in
general: the text of the computed checksum is written exactly when the
operator answers `y` or `setchecksum` is set. -/
theorem absent_attribute_write_iff (fl : Flags) (t : Target) (st : State)
    (hi : fl.interactive = true)
    (ho : t.open_errno = none)
    (hret : (get_adler32 t.reads st.computed st.errno).ret = 0)
    (hattr : t.xattr = XattrRes.fail ENOATTR) :
    (Event.fsetxattr fl.attrname (fmt_x (get_adler32 t.reads st.computed st.errno).computed)
      ∈ events_of fl t st ↔
      to_char (getchar st.stdin).1 = chr 'y' ∨ fl.setchecksum = true) := by
  rcases hr : get_adler32 t.reads st.computed st.errno with ⟨ret, comp, e, n, rest⟩
  rw [hr] at hret
  simp only at hret
  subst hret
  rcases fl with ⟨v, i, c, d, name⟩
  simp only at hi
  subst hi
  rcases hs : t.fsetxattr_errno with _ | e2 <;>
  cases v <;> cases c <;>
    simp only [events_of, process_file, ho, hr, hattr, fgetxattr, hs, on_xattr_error,
      State.emit, read_answ, written_text,
      Bool.false_eq_true, if_false, if_true, ne_eq, not_false_eq_true, not_true_eq_false,
      Bool.and_false, Bool.and_true, Bool.false_or, Bool.true_or, Bool.or_false, Bool.or_true,
      decide_eq_true_eq, Bool.or_eq_true] <;>
    (try split_ifs) <;> simp_all [hint_no_fsetxattr]

/-! ## The claims -/

/-- C1: for every byte sequence `S` and every splitting of `S` into
consecutive non-empty blocks, folding the blocks one after another from the
seed `adler32(0, NULL, 0)` gives the one-pass checksum of `S`, and
`get_adler32` run on those blocks (followed by end of stream, as an exhausted
script or as a zero-byte read) returns 0 and stores that checksum. -/
theorem get_adler32_blocks_eq_checksum (S : List Nat) (blocks : List (List Nat))
    (hsplit : blocks.flatten = S) (hne : ∀ b ∈ blocks, b ≠ []) (out errno : Nat) :
    blocks.foldl (fun adler b => adler32 adler (some b)) (adler32 0 none) = checksum S ∧
    (get_adler32 (blocks.map ReadRes.data) out errno).ret = 0 ∧
    (get_adler32 (blocks.map ReadRes.data) out errno).computed = checksum S ∧
    ∀ rest,
      (get_adler32 (blocks.map ReadRes.data ++ ReadRes.data [] :: rest) out errno).ret = 0 ∧
      (get_adler32 (blocks.map ReadRes.data ++ ReadRes.data [] :: rest) out errno).computed
        = checksum S := by
  have hl := get_adler32_loop_blocks out errno blocks hne (adler32 0 none) 0 (adler32_lt _ _)
  refine ⟨?_, ?_, ?_, fun rest => ⟨?_, ?_⟩⟩
  · rw [adler32_foldl_blocks _ _ (adler32_lt _ _), checksum, hsplit]
  · rw [get_adler32, hl.1]
  · rw [get_adler32, hl.1, checksum, hsplit]
  · rw [get_adler32, hl.2 rest]
  · rw [get_adler32, hl.2 rest, checksum, hsplit]

/-- Witness of C1: the sequence 1, 2, 3 read as the blocks 1, 2 and 3. -/
theorem get_adler32_blocks_eq_checksum_witness :
    ([[1, 2], [3]] : List (List Nat)).flatten = [1, 2, 3] ∧
    (∀ b ∈ ([[1, 2], [3]] : List (List Nat)), b ≠ []) ∧
    (get_adler32 (([[1, 2], [3]] : List (List Nat)).map ReadRes.data) 0 0).computed
      = checksum [1, 2, 3] :=
  ⟨by decide, by decide,
    (get_adler32_blocks_eq_checksum [1, 2, 3] [[1, 2], [3]] (by decide) (by decide) 0 0).2.2.1⟩

/-- What the code does with a correct stored text, in general: in a run with
a single target that opens, is read to its end and whose attribute is the
`"%x"` text of the checksum of its content, the verdict is `Checksum verified`
and the exit code 0 exactly when the high half of the uninitialised
`saved_int` is zero; otherwise the verdict is `Checksum mismatch!` and the
exit code 4. -/
theorem correct_text_verdict (S : List Nat) (t : Target) (opts : List Opt)
    (init : Init) (hopen : t.open_errno = none)
    (hreads : reads_content t.reads S)
    (hattr : t.xattr = XattrRes.value (fmt_x (checksum S))) :
    (verified_event ∈ (main opts [t] init).trace ↔ init.saved_int < 2 ^ 32) ∧
    (mismatch_event ∈ (main opts [t] init).trace ↔ ¬ init.saved_int < 2 ^ 32) ∧
    (main opts [t] init).exitcode = (if init.saved_int < 2 ^ 32 then 0 else 4) := by
  obtain ⟨n, rest, hget⟩ := get_adler32_of_reads_content t.reads S hreads init.computed 0
  have hparse : sscanf_x (fmt_x (checksum S)) = some (checksum S) := by
    rw [sscanf_x_fmt_x, Nat.mod_eq_of_lt (checksum_lt S)]
  have hst : checksum S = store_uint init.saved_int (checksum S) ↔ init.saved_int < 2 ^ 32 :=
    (store_uint_eq_iff _ _ _ (checksum_lt S) (checksum_lt S)).trans (by simp)
  generalize hfl : opts.foldl set_option_flag default_flags = fl
  have hmain : main opts [t] init = process_file fl t (initial_state init) := by
    simp [main, main_loop, hfl]
  have htrace : (process_file fl t (initial_state init)).trace
      = events_of fl t (initial_state init) := by
    simp [events_of, initial_state]
  have hget2 : get_adler32 t.reads (initial_state init).computed (initial_state init).errno
      = { ret := 0, computed := checksum S, errno := 0, nreads := n, rest := rest } := hget
  have hstep := compare_step fl t (initial_state init) _ _ hopen (by rw [hget2])
    (by rw [hattr]; exact fgetxattr_fmt_x _)
  rw [hget2, cstring_fmt_x, hparse] at hstep
  simp only [sscanf_into] at hstep
  have hs : (initial_state init).saved_int = init.saved_int := rfl
  have he : (initial_state init).exitcode = 0 := rfl
  rw [hs, he] at hstep
  rw [hmain, htrace]
  refine ⟨hstep.2.1.trans hst, hstep.2.2.trans (not_congr hst), ?_⟩
  rw [hstep.1]
  by_cases h : init.saved_int < 2 ^ 32
  · rw [if_pos (hst.mpr h), if_pos h]
  · rw [if_neg (fun hh => h (hst.mp hh)), if_neg h]
    rfl

/-- C2, the code at the failing input: the file `a.txt` of content 1, 2, 3
whose attribute holds the text `d0007` of its checksum, run alone without
options, when the 8 bytes of the uninitialised `saved_int` all hold 0x79.
The `sscanf` replaces only the low half, the comparison takes all 8 bytes, and
the run reports a mismatch and exits with code 4. -/
theorem correct_text_mismatches_on_dirty_saved_int :
    sample_target.open_errno = none ∧
    checksum [1, 2, 3] = 0xd0007 ∧
    sample_target.xattr = XattrRes.value ['d', '0', '0', '0', '7'] ∧
    sscanf_x ['d', '0', '0', '0', '7'] = some 0xd0007 ∧
    (main [] [sample_target] { sample_init with saved_int := 0x7979797979797979 }).computed
      = 0xd0007 ∧
    (main [] [sample_target] { sample_init with saved_int := 0x7979797979797979 }).saved_int
      = 0x79797979000d0007 ∧
    mismatch_event
      ∈ (main [] [sample_target] { sample_init with saved_int := 0x7979797979797979 }).trace ∧
    verified_event
      ∉ (main [] [sample_target] { sample_init with saved_int := 0x7979797979797979 }).trace ∧
    (main [] [sample_target] { sample_init with saved_int := 0x7979797979797979 }).exitcode
      = 4 := by
  decide

/-- C3: for every target that opens, is read without error and has a stored
attribute, in whatever state the loop reaches it: if the stored text parses
as hexadecimal to a value different from the computed checksum, the verdict is
`Checksum mismatch!`, not `Checksum verified`, and the exit code is set to 4;
so a run in which such a target is the only or the last one exits with 4. -/
theorem mismatch_when_parsed_differs (fl : Flags) (t : Target) (st : State)
    (attrlen : Nat) (bytes : List Char) (v : Nat)
    (hopen : t.open_errno = none)
    (hread : (get_adler32 t.reads st.computed st.errno).ret = 0)
    (hattr : fgetxattr t.xattr ADLSIZE = Except.ok (attrlen, bytes))
    (hparse : sscanf_x (cstring bytes) = some v)
    (hne : v ≠ (get_adler32 t.reads st.computed st.errno).computed) :
    mismatch_event ∈ events_of fl t st ∧
    verified_event ∉ events_of fl t st ∧
    (process_file fl t st).exitcode = ERROR_BADCHKSUM ∧
    ERROR_BADCHKSUM = 4 ∧
    ∀ pre st0, main_loop fl pre st0 = st →
      (main_loop fl (pre ++ [t]) st0).exitcode = 4 := by
  rcases hr : get_adler32 t.reads st.computed st.errno with ⟨ret, comp, e, n, rest⟩
  rw [hr] at hread hne
  simp only at hread hne
  subst hread
  have hcomp : comp < 2 ^ 32 := by
    have := get_adler32_lt t.reads st.computed st.errno (by rw [hr])
    rwa [hr] at this
  have hne2 : ¬ comp = store_uint st.saved_int v := fun h =>
    hne ((store_uint_eq_iff _ _ _ hcomp (sscanf_x_lt _ _ hparse)).mp h).2.symm
  have key : mismatch_event ∈ events_of fl t st ∧ verified_event ∉ events_of fl t st ∧
      (process_file fl t st).exitcode = ERROR_BADCHKSUM := by
    rcases fl with ⟨vb, i, c, d, name⟩
    cases vb <;>
      simp [events_of, process_file, hopen, hr, hattr, compare, hparse, sscanf_into, hne2,
        State.emit, verified_event, mismatch_event]
  refine ⟨key.1, key.2.1, key.2.2, rfl, fun pre st0 h => ?_⟩
  rw [main_loop_append, h]
  exact key.2.2

/-- Witness of C3: the file of content 1, 2, 3 with the stored text `1`. -/
theorem mismatch_when_parsed_differs_witness :
    sample_mismatch.open_errno = none ∧
    (get_adler32 sample_mismatch.reads (initial_state sample_init).computed
      (initial_state sample_init).errno).ret = 0 ∧
    fgetxattr sample_mismatch.xattr ADLSIZE = Except.ok (1, ['1']) ∧
    sscanf_x (cstring ['1']) = some 1 ∧
    1 ≠ (get_adler32 sample_mismatch.reads (initial_state sample_init).computed
      (initial_state sample_init).errno).computed ∧
    (process_file default_flags sample_mismatch (initial_state sample_init)).exitcode
      = ERROR_BADCHKSUM :=
  ⟨rfl, by decide, rfl, by decide, by decide,
    (mismatch_when_parsed_differs default_flags sample_mismatch (initial_state sample_init)
      1 ['1'] 1 rfl (by decide) rfl (by decide) (by decide)).2.2.1⟩

/-- C5: for every target whose `open` fails, in whatever state the loop
reaches it: when the error is `ENOENT` the exit code is set to 2, for any
other error it is set to the generic failure code, and in both cases no read,
no metadata lookup, no metadata write and no deletion is attempted and no
descriptor is closed. -/
theorem open_failure_exit_code (fl : Flags) (t : Target) (st : State) (e : Nat)
    (hopen : t.open_errno = some e) :
    (e = ENOENT → (process_file fl t st).exitcode = 2) ∧
    (e ≠ ENOENT → (process_file fl t st).exitcode = EXIT_FAILURE) ∧
    Event.read ∉ events_of fl t st ∧
    (∀ name, Event.fgetxattr name ∉ events_of fl t st) ∧
    (∀ name value, Event.fsetxattr name value ∉ events_of fl t st) ∧
    (∀ f, Event.unlink f ∉ events_of fl t st) ∧
    Event.close ∉ events_of fl t st := by
  rcases fl with ⟨v, i, c, d, n⟩
  cases v <;>
    simp [events_of, process_file, hopen, on_open_error, State.emit, ERROR_MISSING_FILE] <;>
    tauto

/-- Witness of C5: the sample target when its `open` fails with `ENOENT`. -/
theorem open_failure_exit_code_witness :
    sample_missing.open_errno = some ENOENT ∧
    (process_file default_flags sample_missing (initial_state sample_init)).exitcode = 2 :=
  ⟨rfl, (open_failure_exit_code default_flags sample_missing (initial_state sample_init)
    ENOENT rfl).1 rfl⟩

/-- C7: for every target that opens and is read without error but whose
attribute is absent (`fgetxattr` fails with `ENOATTR`), when neither
`interactive` nor `setchecksum` is set: the error of the lookup is reported
(on standard output in verbose mode, on standard error otherwise), no verdict
is printed, the exit code is set to the generic failure code, no metadata is
written and nothing is deleted. -/
theorem absent_attribute_without_flags (fl : Flags) (t : Target) (st : State)
    (hi : fl.interactive = false) (hc : fl.setchecksum = false)
    (hopen : t.open_errno = none)
    (hread : (get_adler32 t.reads st.computed st.errno).ret = 0)
    (hattr : t.xattr = XattrRes.fail ENOATTR) :
    (process_file fl t st).exitcode = EXIT_FAILURE ∧
    (∀ name value, Event.fsetxattr name value ∉ events_of fl t st) ∧
    (∀ f, Event.unlink f ∉ events_of fl t st) ∧
    (fl.verbose = true → Event.printf "error getting saved checksum: %s\n"
      [Arg.strerror ENOATTR] ∈ events_of fl t st) ∧
    (fl.verbose = false → Event.fprintf_stderr "Error getting saved checksum for file %s: "
      [Arg.str t.filename] ∈ events_of fl t st ∧ Event.perror "" ENOATTR ∈ events_of fl t st) ∧
    verified_event ∉ events_of fl t st ∧ mismatch_event ∉ events_of fl t st := by
  rcases hr : get_adler32 t.reads st.computed st.errno with ⟨ret, comp, e, n, rest⟩
  rw [hr] at hread
  simp only at hread
  subst hread
  rcases fl with ⟨v, i, c, d, name⟩
  simp only at hi hc
  subst hi hc
  cases v <;>
    simp [events_of, process_file, hopen, hr, hattr, fgetxattr, on_xattr_error, State.emit,
      verified_event, mismatch_event]

/-- Witness of C7: the sample target without its attribute, run without
options. -/
theorem absent_attribute_without_flags_witness :
    default_flags.interactive = false ∧ default_flags.setchecksum = false ∧
    sample_absent.open_errno = none ∧
    (get_adler32 sample_absent.reads (initial_state sample_init).computed
      (initial_state sample_init).errno).ret = 0 ∧
    sample_absent.xattr = XattrRes.fail ENOATTR ∧
    (process_file default_flags sample_absent (initial_state sample_init)).exitcode
      = EXIT_FAILURE :=
  ⟨rfl, rfl, rfl, by decide, rfl,
    (absent_attribute_without_flags default_flags sample_absent (initial_state sample_init)
      rfl rfl rfl (by decide) rfl).1⟩

/-- C8: for every target that opens and is read without error but whose
attribute is absent, when `setchecksum` is set, with or without
`interactive`, whatever is on standard input and whether or not `fsetxattr`
succeeds: exactly one value is written, under the attribute name in use, and
it is the `"%x"` text of the computed checksum, made of lowercase hexadecimal
digits that denote the checksum; the exit code is set to the generic failure
code. -/
theorem setchecksum_writes_hex_text (fl : Flags) (t : Target) (st : State)
    (hc : fl.setchecksum = true)
    (hopen : t.open_errno = none)
    (hread : (get_adler32 t.reads st.computed st.errno).ret = 0)
    (hattr : t.xattr = XattrRes.fail ENOATTR) :
    Event.fsetxattr fl.attrname (fmt_x (get_adler32 t.reads st.computed st.errno).computed)
      ∈ events_of fl t st ∧
    (∀ name value, Event.fsetxattr name value ∈ events_of fl t st →
      name = fl.attrname ∧ value = fmt_x (get_adler32 t.reads st.computed st.errno).computed) ∧
    ((events_of fl t st).filter is_fsetxattr).length = 1 ∧
    (∀ ch ∈ fmt_x (get_adler32 t.reads st.computed st.errno).computed,
      ch ∈ lowercase_hex) ∧
    scan_digits (fmt_x (get_adler32 t.reads st.computed st.errno).computed) 0
      = (get_adler32 t.reads st.computed st.errno).computed ∧
    (process_file fl t st).exitcode = EXIT_FAILURE := by
  have hlt := get_adler32_lt t.reads st.computed st.errno hread
  refine ⟨?_, ?_, ?_, fmt_x_lowercase _, scan_digits_fmt_x _ hlt, ?_⟩
  all_goals
    rcases hr : get_adler32 t.reads st.computed st.errno with ⟨ret, comp, e, n, rest⟩
    rw [hr] at hread
    simp only at hread
    subst hread
    rcases fl with ⟨v, i, c, d, name⟩
    simp only at hc
    subst hc
    rcases hs : t.fsetxattr_errno with _ | e2 <;>
    cases v <;> cases i <;>
      simp [events_of, process_file, hopen, hr, hattr, fgetxattr, on_xattr_error, State.emit,
        read_answ, written_text, hs, hint_no_fsetxattr, List.filter_cons, List.filter_append,
        hint_filter_fsetxattr, replicate_read_filter_fsetxattr, is_fsetxattr]

/-- Witness of C8: the sample target without its attribute, run with `-c`. -/
theorem setchecksum_writes_hex_text_witness :
    (set_option_flag default_flags Opt.c).setchecksum = true ∧
    sample_absent.open_errno = none ∧
    (get_adler32 sample_absent.reads (initial_state sample_init).computed
      (initial_state sample_init).errno).ret = 0 ∧
    sample_absent.xattr = XattrRes.fail ENOATTR ∧
    Event.fsetxattr "user.storm.checksum.adler32" ['d', '0', '0', '0', '7']
      ∈ events_of (set_option_flag default_flags Opt.c) sample_absent
        (initial_state sample_init) :=
  ⟨rfl, rfl, by decide, rfl,
    (setchecksum_writes_hex_text (set_option_flag default_flags Opt.c) sample_absent
      (initial_state sample_init) rfl rfl (by decide) rfl).1⟩

/-- C10: round trip of the textual form. For every 32-bit value `v`, the text
that `snprintf(saved, ADLSIZE, "%x", v)` leaves in the buffer and that is
written with length `strlen(saved)` is returned whole by a lookup into the
17-byte buffer, and `sscanf` with `"%x"` converts it back to `v`. -/
theorem hex_text_round_trip (v : Nat) (hv : v < 2 ^ 32) :
    fgetxattr (XattrRes.value
        ((snprintf_x ADLSIZE v).take (strlen (snprintf_x ADLSIZE v)))) ADLSIZE
      = Except.ok (((snprintf_x ADLSIZE v).take (strlen (snprintf_x ADLSIZE v))).length,
          (snprintf_x ADLSIZE v).take (strlen (snprintf_x ADLSIZE v))) ∧
    sscanf_x (cstring ((snprintf_x ADLSIZE v).take (strlen (snprintf_x ADLSIZE v))))
      = some v := by
  rw [written_text, fgetxattr_fmt_x, cstring_fmt_x, sscanf_x_fmt_x, Nat.mod_eq_of_lt hv]
  exact ⟨rfl, rfl⟩

/-- Witness of C10: the largest 32-bit value. -/
theorem hex_text_round_trip_witness :
    4294967295 < 2 ^ 32 ∧
    sscanf_x (cstring ((snprintf_x ADLSIZE 4294967295).take
      (strlen (snprintf_x ADLSIZE 4294967295)))) = some 4294967295 :=
  ⟨by norm_num, (hex_text_round_trip 4294967295 (by norm_num)).2⟩

/-- C6, the code at the failing input: without `-i` and without `-d`, when the
read fails with `EIO` and the uninitialised `answ` happens to hold `y`, the
exit code is 3, nobody is prompted, and the file is deleted. -/
theorem io_error_unlinks_on_uninitialised_answ :
    default_flags.interactive = false ∧ default_flags.deletebad = false ∧
    (main [] [sample_ioerr] { sample_init with answ := chr 'y' }).exitcode = 3 ∧
    Event.getchar ∉ (main [] [sample_ioerr] { sample_init with answ := chr 'y' }).trace ∧
    Event.unlink "a.txt"
      ∈ (main [] [sample_ioerr] { sample_init with answ := chr 'y' }).trace := by
  decide

/-- C9, the code at the failing input: in interactive mode without `-c`, the
answer `Y` to the prompt of an absent attribute writes nothing, while the same
answer to the prompt of an I/O error deletes the file. -/
theorem uppercase_yes_writes_nothing :
    (main [Opt.i] [sample_absent] { sample_init with stdin := [89] }).answ = chr 'Y' ∧
    (main [Opt.i] [sample_absent] { sample_init with stdin := [89] }).trace.filter
      is_fsetxattr = [] ∧
    (main [Opt.i] [sample_ioerr] { sample_init with stdin := [89] }).answ = chr 'Y' ∧
    Event.unlink "a.txt"
      ∈ (main [Opt.i] [sample_ioerr] { sample_init with stdin := [89] }).trace ∧
    (main [Opt.i] [sample_absent] { sample_init with stdin := [121] }).trace.filter
      is_fsetxattr = [Event.fsetxattr "user.storm.checksum.adler32" ['d', '0', '0', '0', '7']] := by
  decide

/-- C4: for every non-empty list of targets and every list of recognised
options, the exit code of the process is the code of the last target in the list
whose outcome is a failure (2 for a missing file, 3 for an I/O read error, 4
for a mismatch, the generic failure code otherwise), whatever the outcomes of
the targets before or after it, and 0 when no target fails; every such code is
one of 2, 3, 4 and the generic failure code; and the exit code is 0 exactly
when every target verified. -/
theorem exit_code_is_last_failure (opts : List Opt) (files : List Target) (init : Init)
    (hne : files ≠ []) :
    (main opts files init).exitcode =
      (((run_states (opts.foldl set_option_flag default_flags) files
          (initial_state init)).filterMap
        (fun p => target_exit_code (opts.foldl set_option_flag default_flags) p.1 p.2)).getLast?).getD
        0 ∧
    (∀ c ∈ (run_states (opts.foldl set_option_flag default_flags) files
          (initial_state init)).filterMap
        (fun p => target_exit_code (opts.foldl set_option_flag default_flags) p.1 p.2),
      c = 2 ∨ c = 3 ∨ c = 4 ∨ c = EXIT_FAILURE) ∧
    ((main opts files init).exitcode = 0 ↔
      ∀ p ∈ run_states (opts.foldl set_option_flag default_flags) files (initial_state init),
        verified_event ∈ events_of (opts.foldl set_option_flag default_flags) p.1 p.2) := by
  have hmain : (main opts files init).exitcode
      = (main_loop (opts.foldl set_option_flag default_flags) files
          (initial_state init)).exitcode := by
    simp [main, hne]
  generalize opts.foldl set_option_flag default_flags = fl at hmain ⊢
  have hexit := main_loop_exitcode fl files (initial_state init)
  have h0 : (initial_state init).exitcode = 0 := rfl
  rw [h0] at hexit
  rw [hmain, hexit]
  have hcodes : ∀ c ∈ (run_states fl files (initial_state init)).filterMap
      (fun p => target_exit_code fl p.1 p.2), c = 2 ∨ c = 3 ∨ c = 4 ∨ c = EXIT_FAILURE := by
    intro c hc
    obtain ⟨p, _, hp⟩ := List.mem_filterMap.mp hc
    exact (process_file_exitcode fl p.1 p.2).2.1 c hp
  refine ⟨rfl, hcodes, ?_⟩
  have hnil : (run_states fl files (initial_state init)).filterMap
      (fun p => target_exit_code fl p.1 p.2) = [] ↔
      ∀ p ∈ run_states fl files (initial_state init), verified_event ∈ events_of fl p.1 p.2 := by
    rw [List.filterMap_eq_nil_iff]
    constructor
    · intro h p hp
      exact (process_file_exitcode fl p.1 p.2).2.2.mp (h p hp)
    · intro h p hp
      exact (process_file_exitcode fl p.1 p.2).2.2.mpr (h p hp)
  rw [← hnil]
  constructor
  · intro h
    by_contra hne2
    have hmem := List.getLast_mem hne2
    rw [List.getLast?_eq_getLast _ hne2, Option.getD_some] at h
    rw [h] at hmem
    rcases hcodes 0 hmem with h2 | h2 | h2 | h2 <;> simp [EXIT_FAILURE] at h2
  · intro h
    rw [h]
    rfl

/-- Witness of C4: a mismatching target followed by a verified one exits with
the code of the mismatch. -/
theorem exit_code_is_last_failure_witness :
    [sample_mismatch, sample_target] ≠ [] ∧
    (main [] [sample_mismatch, sample_target] sample_init).exitcode = 4 ∧
    (main [] [sample_mismatch, sample_target] sample_init).exitcode =
      (((run_states (([] : List Opt).foldl set_option_flag default_flags)
          [sample_mismatch, sample_target] (initial_state sample_init)).filterMap
        (fun p => target_exit_code (([] : List Opt).foldl set_option_flag default_flags)
          p.1 p.2)).getLast?).getD 0 :=
  ⟨by simp, by decide,
    (exit_code_is_last_failure [] [sample_mismatch, sample_target] sample_init
      (by simp)).1⟩

/-- The loop on a script of non-empty blocks followed by a failing read. -/
theorem get_adler32_loop_fail (out errno : Nat) (blocks : List (List Nat))
    (hne : ∀ b ∈ blocks, b ≠ []) (e : Nat) (rest : List ReadRes) (adler n : Nat) :
    get_adler32_loop out errno (blocks.map ReadRes.data ++ ReadRes.fail e :: rest) adler n =
      { ret := -1, computed := out, errno := e, nreads := n + blocks.length + 1,
        rest := rest } := by
  induction blocks generalizing adler n with
  | nil => simp [get_adler32_loop]
  | cons b bs ih =>
    have hb : 0 < b.length := List.length_pos.mpr (hne b (List.mem_cons_self _ _))
    simp only [List.map_cons, List.cons_append, get_adler32_loop, hb, if_true,
      List.length_cons, List.append_eq]
    rw [ih (fun c hc => hne c (List.mem_cons_of_mem _ hc))]
    simp only [AdlerResult.mk.injEq, true_and, and_true]
    omega

/-- The loop returns 0 only on a script that is read to its end. -/
theorem get_adler32_loop_ret_zero (out errno : Nat) (reads : List ReadRes) (adler n : Nat)
    (h : (get_adler32_loop out errno reads adler n).ret = 0) :
    ∃ blocks : List (List Nat), (∀ b ∈ blocks, b ≠ []) ∧
      (reads = blocks.map ReadRes.data ∨
        ∃ rest, reads = blocks.map ReadRes.data ++ ReadRes.data [] :: rest) := by
  induction reads generalizing adler n with
  | nil => exact ⟨[], by simp, Or.inl rfl⟩
  | cons r rest ih =>
    cases r with
    | data bs =>
      simp only [get_adler32_loop] at h
      by_cases hb : 0 < bs.length
      · rw [if_pos hb] at h
        obtain ⟨blocks, hne, hr⟩ := ih _ _ h
        refine ⟨bs :: blocks, ?_, ?_⟩
        · intro b hbm
          rcases List.mem_cons.mp hbm with rfl | hbm
          · exact List.length_pos.mp hb
          · exact hne b hbm
        · rcases hr with hr | ⟨rest2, hr⟩
          · exact Or.inl (by rw [hr]; rfl)
          · exact Or.inr ⟨rest2, by rw [hr]; rfl⟩
      · have hnil : bs = [] := by
          cases bs with
          | nil => rfl
          | cons _ _ => simp at hb
        exact ⟨[], by simp, Or.inr ⟨rest, by rw [hnil]; rfl⟩⟩
    | fail e => simp [get_adler32_loop] at h

/-- The loop returns 0 or -1, and on -1 the output is left as it was. -/
theorem get_adler32_loop_ret (out errno : Nat) (reads : List ReadRes) (adler n : Nat) :
    (get_adler32_loop out errno reads adler n).ret = 0 ∨
    ((get_adler32_loop out errno reads adler n).ret = -1 ∧
      (get_adler32_loop out errno reads adler n).computed = out) := by
  induction reads generalizing adler n with
  | nil => exact Or.inl rfl
  | cons r rest ih =>
    cases r with
    | data bs =>
      simp only [get_adler32_loop]
      split
      · exact ih _ _
      · exact Or.inl rfl
    | fail e => exact Or.inr ⟨rfl, rfl⟩

/-- C13: when a read fails after any number of successful non-empty blocks,
`get_adler32` returns -1, leaves the caller's `computed` as it was, has made
one read per block plus the failing one and none after it (the rest of the
script is not consumed), and `errno` is the error of that read. On every
script it returns 0 or -1, never stores on -1, and returns 0 only when the
stream was read to a zero-byte read (or to the end of the script), in which
case the stored value is the checksum of what was read. -/
theorem get_adler32_failure_stores_nothing (reads : List ReadRes) (out errno : Nat) :
    (∀ (blocks : List (List Nat)) (e : Nat) (rest : List ReadRes),
      (∀ b ∈ blocks, b ≠ []) →
      get_adler32 (blocks.map ReadRes.data ++ ReadRes.fail e :: rest) out errno =
        { ret := -1, computed := out, errno := e, nreads := blocks.length + 1,
          rest := rest }) ∧
    ((get_adler32 reads out errno).ret = 0 ∨
      ((get_adler32 reads out errno).ret = -1 ∧
        (get_adler32 reads out errno).computed = out)) ∧
    ((get_adler32 reads out errno).ret = 0 →
      ∃ S, reads_content reads S ∧ (get_adler32 reads out errno).computed = checksum S) := by
  refine ⟨fun blocks e rest hne => ?_, get_adler32_loop_ret _ _ _ _ _, fun h => ?_⟩
  · rw [get_adler32, get_adler32_loop_fail out errno blocks hne e rest]
    simp
  · obtain ⟨blocks, hne, hr⟩ := get_adler32_loop_ret_zero out errno reads _ 0 h
    have hc : reads_content reads blocks.flatten := ⟨blocks, rfl, hne, hr⟩
    obtain ⟨n, rest, hget⟩ := get_adler32_of_reads_content reads _ hc out errno
    exact ⟨blocks.flatten, hc, by rw [hget]⟩

/-- Witness of C13: two blocks, then a read that fails with `EIO`, then a
block that is never read; the caller's `computed` stays 42. -/
theorem get_adler32_failure_stores_nothing_witness :
    (∀ b ∈ ([[1, 2], [3]] : List (List Nat)), b ≠ []) ∧
    get_adler32 (([[1, 2], [3]] : List (List Nat)).map ReadRes.data
        ++ ReadRes.fail EIO :: [ReadRes.data [4]]) 42 0 =
      { ret := -1, computed := 42, errno := EIO, nreads := 3, rest := [ReadRes.data [4]] } :=
  ⟨by decide,
    (get_adler32_failure_stores_nothing [] 42 0).1 [[1, 2], [3]] EIO [ReadRes.data [4]]
      (by decide)⟩

/-- C14: for an empty stream (the first read returns zero bytes, as an
exhausted script or as a zero-byte read), `get_adler32` returns 0 after one
read and stores the seed `adler32(0, NULL, 0)`, which is 1, that is
`sum2 = 0` and `sum1 = 1`; it is also the one-pass checksum of the empty
sequence. -/
theorem get_adler32_empty_stream (out errno : Nat) (rest : List ReadRes) :
    get_adler32 [] out errno =
      { ret := 0, computed := 1, errno := errno, nreads := 1, rest := [] } ∧
    get_adler32 (ReadRes.data [] :: rest) out errno =
      { ret := 0, computed := 1, errno := errno, nreads := 1, rest := rest } ∧
    adler32 0 none = 1 ∧ adler32 0 none / 65536 = 0 ∧ adler32 0 none % 65536 = 1 ∧
    checksum [] = 1 := by
  refine ⟨rfl, rfl, rfl, rfl, rfl, rfl⟩

/-- C11 as stated fails: without `-v`, a target that is a directory does get a
message, the generic read error on standard error. -/
theorem directory_reported_when_not_verbose :
    default_flags.verbose = false ∧
    sample_directory.open_errno = none ∧
    sample_directory.reads = [ReadRes.fail EISDIR] ∧
    (events_of default_flags sample_directory (initial_state sample_init)).filter is_message =
      [Event.fprintf_stderr "Error reading file %s: " [Arg.str "a.txt"],
        Event.perror "" EISDIR] ∧
    ¬ (events_of default_flags sample_directory (initial_state sample_init)).filter is_message
      = [] := by
  decide

/-- C11 as amended: for every target that opens and whose read fails with
`EISDIR`, in whatever state the loop reaches it: the exit code is set to the
generic failure code, the loop goes on with the next target, nothing is
deleted and the descriptor is closed; in verbose mode the failure is reported
by the skip notice on standard output and nothing goes to standard error; in
non-verbose mode the skip notice is not printed and the messages of the
iteration are the generic read error on standard error, `Error reading file`
with the file name followed by the text of `EISDIR`. -/
theorem directory_read_failure (fl : Flags) (t : Target) (st : State)
    (ho : t.open_errno = none)
    (hret : (get_adler32 t.reads st.computed st.errno).ret ≠ 0)
    (hdir : (get_adler32 t.reads st.computed st.errno).errno = EISDIR) :
    (process_file fl t st).exitcode = EXIT_FAILURE ∧
    (∀ post, main_loop fl (t :: post) st = main_loop fl post (process_file fl t st)) ∧
    (events_of fl t st).filter is_unlink = [] ∧
    (events_of fl t st).filter is_close = [Event.close] ∧
    (fl.verbose = true →
      Event.printf "It's a directory, skipping\n" [] ∈ events_of fl t st ∧
      (∀ format args, Event.fprintf_stderr format args ∉ events_of fl t st) ∧
      (∀ s e, Event.perror s e ∉ events_of fl t st)) ∧
    (fl.verbose = false →
      Event.printf "It's a directory, skipping\n" [] ∉ events_of fl t st ∧
      (events_of fl t st).filter is_message =
        [Event.fprintf_stderr "Error reading file %s: " [Arg.str t.filename],
          Event.perror "" EISDIR]) := by
  have hexit := (read_error_step fl t st ho hret).1
  rw [hdir, if_neg (by decide)] at hexit
  refine ⟨hexit, fun post => rfl, ?_⟩
  rcases hr : get_adler32 t.reads st.computed st.errno with ⟨ret, comp, e, n, rest⟩
  rw [hr] at hret hdir
  simp only at hret hdir
  subst hdir
  rcases fl with ⟨v, i, c, d, name⟩
  cases v <;>
    simp [events_of, process_file, ho, hr, hret, on_read_error, State.emit, EISDIR, EIO,
      List.filter_cons, List.filter_append, is_unlink, is_close, is_message]

/-- Witness of C11: the sample directory, run without options. -/
theorem directory_read_failure_witness :
    sample_directory.open_errno = none ∧
    (get_adler32 sample_directory.reads (initial_state sample_init).computed
      (initial_state sample_init).errno).ret ≠ 0 ∧
    (get_adler32 sample_directory.reads (initial_state sample_init).computed
      (initial_state sample_init).errno).errno = EISDIR ∧
    (process_file default_flags sample_directory (initial_state sample_init)).exitcode
      = EXIT_FAILURE :=
  ⟨rfl, by decide, by decide,
    (directory_read_failure default_flags sample_directory (initial_state sample_init)
      rfl (by decide) (by decide)).1⟩

/-- The hint opens and closes nothing. -/
theorem hint_filter_descriptor (filename : String) :
    (hint filename).filter is_descriptor_event = [] := by
  rw [List.filter_eq_nil_iff]
  intro ev h
  obtain ⟨_, _, rfl⟩ := hint_printf filename _ h
  simp [is_descriptor_event, is_open, is_close]

/-- Reads open and close nothing. -/
theorem replicate_read_filter_descriptor (n : Nat) :
    (List.replicate n Event.read).filter is_descriptor_event = [] := by
  rw [List.filter_eq_nil_iff]
  intro ev h
  rw [(List.mem_replicate.mp h).2]
  simp [is_descriptor_event, is_open, is_close]

/-- Descriptor events of an iteration whose `open` fails. -/
theorem open_error_descriptor (fl : Flags) (t : Target) (st : State) (e : Nat)
    (ho : t.open_errno = some e) :
    ∃ es, (process_file fl t st).trace = st.trace ++ es ∧
      es.filter is_descriptor_event = descriptor_events t ∧
      (t.open_errno = none → es.getLast? = some Event.close) := by
  rcases fl with ⟨v, i, c, d, name⟩
  cases v <;>
    simp only [process_file, ho, on_open_error, State.emit, Bool.false_eq_true, if_false,
      if_true] <;>
    exact ⟨_, by simp only [List.append_assoc]; rfl,
      by simp [List.filter_cons, is_descriptor_event, is_open, is_close, descriptor_events, ho],
      by simp⟩

/-- Descriptor events of an iteration whose read fails. -/
theorem read_error_descriptor (fl : Flags) (t : Target) (st : State)
    (ho : t.open_errno = none)
    (hret : (get_adler32 t.reads st.computed st.errno).ret ≠ 0) :
    ∃ es, (process_file fl t st).trace = st.trace ++ es ∧
      es.filter is_descriptor_event = descriptor_events t ∧
      (t.open_errno = none → es.getLast? = some Event.close) := by
  rcases hr : get_adler32 t.reads st.computed st.errno with ⟨ret, comp, e, n, rest⟩
  rw [hr] at hret
  simp only at hret
  rcases fl with ⟨v, i, c, d, name⟩
  cases v <;> cases i <;> cases d <;>
    simp only [process_file, ho, hr, hret, on_read_error, State.emit, read_answ,
      Bool.false_eq_true, if_false, if_true, ne_eq, not_false_eq_true,
      Bool.and_false, Bool.and_true, Bool.false_or, Bool.true_or, decide_eq_true_eq,
      Bool.or_eq_true] <;>
    (try split_ifs) <;>
    exact ⟨_, by simp only [List.append_assoc]; rfl,
      by simp [List.filter_cons, List.filter_append, replicate_read_filter_descriptor,
        is_descriptor_event, is_open, is_close, descriptor_events, ho],
      fun _ => by rw [← List.head?_reverse]; simp⟩

/-- Descriptor events of an iteration whose lookup fails. -/
theorem xattr_error_descriptor (fl : Flags) (t : Target) (st : State) (e : Nat)
    (ho : t.open_errno = none)
    (hret : (get_adler32 t.reads st.computed st.errno).ret = 0)
    (hx : fgetxattr t.xattr ADLSIZE = Except.error e) :
    ∃ es, (process_file fl t st).trace = st.trace ++ es ∧
      es.filter is_descriptor_event = descriptor_events t ∧
      (t.open_errno = none → es.getLast? = some Event.close) := by
  rcases hr : get_adler32 t.reads st.computed st.errno with ⟨ret, comp, er, n, rest⟩
  rw [hr] at hret
  simp only at hret
  subst hret
  rcases fl with ⟨v, i, c, d, name⟩
  rcases hs : t.fsetxattr_errno with _ | e2 <;>
  cases v <;> cases i <;> cases c <;>
    simp only [process_file, ho, hr, hx, hs, on_xattr_error, State.emit, read_answ,
      Bool.false_eq_true, if_false, if_true, ne_eq, not_false_eq_true, not_true_eq_false,
      Bool.and_false, Bool.and_true, Bool.false_or, Bool.true_or, Bool.or_false, Bool.or_true,
      decide_eq_true_eq, Bool.or_eq_true] <;>
    (try split_ifs) <;>
    exact ⟨_, by simp only [List.append_assoc]; rfl,
      by simp [List.filter_cons, List.filter_append, replicate_read_filter_descriptor,
        hint_filter_descriptor, is_descriptor_event, is_open, is_close, descriptor_events, ho],
      fun _ => by rw [← List.head?_reverse]; simp⟩

/-- Descriptor events of an iteration whose lookup succeeds. -/
theorem compare_descriptor (fl : Flags) (t : Target) (st : State) (attrlen : Nat)
    (bytes : List Char)
    (ho : t.open_errno = none)
    (hret : (get_adler32 t.reads st.computed st.errno).ret = 0)
    (hx : fgetxattr t.xattr ADLSIZE = Except.ok (attrlen, bytes)) :
    ∃ es, (process_file fl t st).trace = st.trace ++ es ∧
      es.filter is_descriptor_event = descriptor_events t ∧
      (t.open_errno = none → es.getLast? = some Event.close) := by
  rcases hr : get_adler32 t.reads st.computed st.errno with ⟨ret, comp, er, n, rest⟩
  rw [hr] at hret
  simp only at hret
  subst hret
  rcases fl with ⟨v, i, c, d, name⟩
  rcases hp : sscanf_x (cstring bytes) with _ | pv <;>
  cases v <;>
    simp only [process_file, ho, hr, hx, hp, compare, State.emit,
      Bool.false_eq_true, if_false, if_true, ne_eq, not_false_eq_true, not_true_eq_false,
      Bool.not_false, Bool.not_true] <;>
    (try split_ifs) <;>
    exact ⟨_, by simp only [List.append_assoc]; rfl,
      by simp [List.filter_cons, List.filter_append, replicate_read_filter_descriptor,
        is_descriptor_event, is_open, is_close, descriptor_events, ho],
      fun _ => by rw [← List.head?_reverse]; simp⟩

/-- Every iteration appends its events to the trace; among them the
descriptor events are a successful `open` followed by one `close`, or a failed
`open` alone, and after a successful `open` the `close` is the last event. -/
theorem process_file_descriptor (fl : Flags) (t : Target) (st : State) :
    (process_file fl t st).trace = st.trace ++ events_of fl t st ∧
    (events_of fl t st).filter is_descriptor_event = descriptor_events t ∧
    (t.open_errno = none → (events_of fl t st).getLast? = some Event.close) := by
  have key : ∃ es, (process_file fl t st).trace = st.trace ++ es ∧
      es.filter is_descriptor_event = descriptor_events t ∧
      (t.open_errno = none → es.getLast? = some Event.close) := by
    rcases ho : t.open_errno with _ | eo
    · by_cases hret : (get_adler32 t.reads st.computed st.errno).ret = 0
      · rcases hx : fgetxattr t.xattr ADLSIZE with ex | ⟨len, bytes⟩
        · simpa [ho] using xattr_error_descriptor fl t st ex ho hret hx
        · simpa [ho] using compare_descriptor fl t st len bytes ho hret hx
      · simpa [ho] using read_error_descriptor fl t st ho hret
    · simpa [ho] using open_error_descriptor fl t st eo ho
  obtain ⟨es, h1, h2, h3⟩ := key
  have he := events_of_eq fl t st es h1
  rw [he]
  exact ⟨h1, h2, h3⟩

/-- The trace after the loop is the trace before it followed by the events of
every iteration in turn. -/
theorem main_loop_trace (fl : Flags) (ts : List Target) (st : State) :
    (main_loop fl ts st).trace =
      st.trace ++ ((run_states fl ts st).map (fun p => events_of fl p.1 p.2)).flatten := by
  induction ts generalizing st with
  | nil => simp [main_loop, run_states]
  | cons t ts ih =>
    simp only [main_loop, run_states, List.map_cons, List.flatten_cons]
    rw [ih, (process_file_descriptor fl t st).1, List.append_assoc]

/-- The descriptor events of a whole run. -/
theorem main_loop_descriptor (fl : Flags) (ts : List Target) (st : State) :
    (main_loop fl ts st).trace.filter is_descriptor_event =
      st.trace.filter is_descriptor_event ++ (ts.map descriptor_events).flatten := by
  induction ts generalizing st with
  | nil => simp [main_loop]
  | cons t ts ih =>
    simp only [main_loop, List.map_cons, List.flatten_cons]
    rw [ih, (process_file_descriptor fl t st).1, List.filter_append,
      (process_file_descriptor fl t st).2.1, List.append_assoc]


/-- C12: handle scoping. For every run of `main` over a non-empty list of
targets, whatever the results of `open`, `read` and the lookup: the trace of
the run is the events of the iterations one after the other; the `open` and
`close` events of the run are, target by target, one successful `open`
followed by one `close`, or one failed `open` and no `close`; and in every
iteration whose `open` succeeded the `close` is the last event, so it comes
before the next target is processed and before the exit. -/
theorem descriptor_closed_exactly_once (opts : List Opt) (files : List Target) (init : Init)
    (hne : files ≠ []) :
    (main opts files init).trace =
      ((run_states (opts.foldl set_option_flag default_flags) files
        (initial_state init)).map
        (fun p => events_of (opts.foldl set_option_flag default_flags) p.1 p.2)).flatten ∧
    (main opts files init).trace.filter is_descriptor_event =
      (files.map descriptor_events).flatten ∧
    ∀ p ∈ run_states (opts.foldl set_option_flag default_flags) files (initial_state init),
      (events_of (opts.foldl set_option_flag default_flags) p.1 p.2).filter is_descriptor_event
        = descriptor_events p.1 ∧
      (p.1.open_errno = none →
        (events_of (opts.foldl set_option_flag default_flags) p.1 p.2).getLast?
          = some Event.close) ∧
      (p.1.open_errno ≠ none →
        Event.close ∉ events_of (opts.foldl set_option_flag default_flags) p.1 p.2) := by
  have hmain : main opts files init
      = main_loop (opts.foldl set_option_flag default_flags) files (initial_state init) := by
    simp [main, hne]
  generalize opts.foldl set_option_flag default_flags = fl at hmain ⊢
  have h0 : (initial_state init).trace = [] := rfl
  refine ⟨?_, ?_, fun p _ => ⟨(process_file_descriptor fl p.1 p.2).2.1,
    (process_file_descriptor fl p.1 p.2).2.2, fun hfail hmem => ?_⟩⟩
  · rw [hmain, main_loop_trace, h0, List.nil_append]
  · rw [hmain, main_loop_descriptor, h0]
    rfl
  · have hf := (process_file_descriptor fl p.1 p.2).2.1
    have hin : Event.close ∈ (events_of fl p.1 p.2).filter is_descriptor_event :=
      List.mem_filter.mpr ⟨hmem, rfl⟩
    rw [hf, descriptor_events, if_neg hfail] at hin
    simp at hin

/-- Witness of C12: a missing file, then a directory, then a verified file. -/
theorem descriptor_closed_exactly_once_witness :
    [sample_missing, sample_directory, sample_target] ≠ [] ∧
    (main [] [sample_missing, sample_directory, sample_target] sample_init).trace.filter
        is_descriptor_event =
      [Event.open "a.txt" false, Event.open "a.txt" true, Event.close,
        Event.open "a.txt" true, Event.close] :=
  ⟨by simp,
    (descriptor_closed_exactly_once [] [sample_missing, sample_directory, sample_target]
      sample_init (by simp)).2.1⟩

/-- C15, the code at the failing input: an attribute of 17 bytes is returned
whole by the lookup into the 17-byte buffer, and the terminator is then
stored at index 17, which is not inside `char saved[17]`; the indices inside
it are those below 17. -/
theorem terminator_outside_saved :
    fgetxattr sample_long_text.xattr ADLSIZE
      = Except.ok (17, List.replicate 16 '0' ++ ['7']) ∧
    Event.store_saved 17 ∈ (main [] [sample_long_text] sample_init).trace ∧
    in_saved 17 = false ∧
    in_saved 16 = true := by
  refine ⟨rfl, by decide, by decide, by decide⟩

/-- C16, the code at the failing input: the empty stored text, which `sscanf`
does not convert, with the same file content and so the same computed
checksum, is reported as a mismatch when the file is the only target and as
verified when it follows a verified target of the same content, whose parsed
value is still in `saved_int`. -/
theorem verdict_depends_on_stale_saved_int :
    sscanf_x (cstring []) = none ∧
    (main [] [sample_empty_text] sample_init).computed
      = (main [] [sample_target, sample_empty_text] sample_init).computed ∧
    (main [] [sample_empty_text] sample_init).trace.filter
        (fun ev => decide (ev = verified_event ∨ ev = mismatch_event))
      = [mismatch_event] ∧
    (main [] [sample_empty_text] sample_init).exitcode = 4 ∧
    (main [] [sample_target, sample_empty_text] sample_init).trace.filter
        (fun ev => decide (ev = verified_event ∨ ev = mismatch_event))
      = [verified_event, verified_event] ∧
    (main [] [sample_target, sample_empty_text] sample_init).exitcode = 0 := by
  decide

/-- Where the terminator goes, in general: after a successful lookup the
terminator is stored at the length returned, which is at most 17, and that
index is inside the buffer exactly when the length is at most 16. -/
theorem store_saved_index (fl : Flags) (t : Target) (st : State) (attrlen : Nat)
    (bytes : List Char)
    (ho : t.open_errno = none)
    (hret : (get_adler32 t.reads st.computed st.errno).ret = 0)
    (hx : fgetxattr t.xattr ADLSIZE = Except.ok (attrlen, bytes)) :
    Event.store_saved attrlen ∈ events_of fl t st ∧ attrlen ≤ 17 ∧
    (in_saved attrlen = true ↔ attrlen ≤ 16) := by
  refine ⟨?_, ?_, ?_⟩
  · rcases hr : get_adler32 t.reads st.computed st.errno with ⟨ret, comp, er, n, rest⟩
    rw [hr] at hret
    simp only at hret
    subst hret
    rcases fl with ⟨v, i, c, d, name⟩
    rcases hp : sscanf_x (cstring bytes) with _ | pv <;>
    cases v <;>
      simp only [events_of, process_file, ho, hr, hx, hp, compare, State.emit,
        Bool.false_eq_true, if_false, if_true, ne_eq, not_false_eq_true, not_true_eq_false,
        Bool.not_false, Bool.not_true] <;>
      (try split_ifs) <;> simp
  · cases hxa : t.xattr with
    | fail e => simp [fgetxattr, hxa] at hx
    | value bs =>
      simp only [fgetxattr, hxa, ADLSIZE] at hx
      split at hx
      · rename_i hle
        simp only [Except.ok.injEq, Prod.mk.injEq] at hx
        omega
      · simp at hx
  · simp only [in_saved, ADLSIZE, decide_eq_true_eq]
    omega

/-- A non-zero digit is not printed as `0`. -/
theorem hexdigit_ne_zero (d : Nat) (h0 : 0 < d) (h : d < 16) : hexdigit d ≠ '0' := by
  interval_cases d <;> decide

/-- The text of a non-zero value starts with a non-zero digit. -/
theorem fmt_x_aux_head (fuel v : Nat) (h0 : 0 < v) (h : v < 16 ^ fuel) :
    ∃ d cs, 0 < d ∧ d < 16 ∧ fmt_x_aux fuel v [] = hexdigit d :: cs := by
  induction fuel generalizing v with
  | zero => simp at h; omega
  | succ fuel ih =>
    simp only [fmt_x_aux]
    split
    · rename_i hz
      exact ⟨v % 16, [], by omega, Nat.mod_lt _ (by norm_num), rfl⟩
    · rename_i hz
      obtain ⟨d, cs, hd0, hd, heq⟩ := ih (v / 16) (by omega) (by rw [pow_succ] at h; omega)
      exact ⟨d, cs ++ [hexdigit (v % 16)], hd0, hd, by rw [fmt_x_aux_acc, heq]; rfl⟩

/-- C17: for every 32-bit value, the text of `"%x"` has between 1 and 8
digits, `snprintf` into the 17-byte buffer does not truncate it, the value
handed to `fsetxattr` is that text with exactly its length, it contains no
terminator, it has no leading zero (its first digit is `0` only for the value
0, whose text is the single digit `0`), and its digits denote the value. -/
theorem hex_text_fits_buffer (v : Nat) (hv : v < 2 ^ 32) :
    1 ≤ (fmt_x v).length ∧ (fmt_x v).length ≤ 8 ∧
    snprintf_x ADLSIZE v = fmt_x v ∧
    (snprintf_x ADLSIZE v).take (strlen (snprintf_x ADLSIZE v)) = fmt_x v ∧
    ((snprintf_x ADLSIZE v).take (strlen (snprintf_x ADLSIZE v))).length = (fmt_x v).length ∧
    (∀ c ∈ (snprintf_x ADLSIZE v).take (strlen (snprintf_x ADLSIZE v)), c.toNat ≠ 0) ∧
    (v ≠ 0 → (fmt_x v).head? ≠ some '0') ∧
    (v = 0 → fmt_x v = ['0']) ∧
    scan_digits (fmt_x v) 0 = v := by
  have hmod : v % 2 ^ 32 = v := Nat.mod_eq_of_lt hv
  refine ⟨?_, fmt_x_length v, snprintf_x_ADLSIZE v, written_text v, by rw [written_text], ?_,
    ?_, ?_, scan_digits_fmt_x v hv⟩
  · have hne : fmt_x v ≠ [] := fmt_x_aux_ne_nil 7 _
    exact List.length_pos.mpr hne
  · rw [written_text]
    intro c hc
    obtain ⟨d, hd, rfl⟩ := fmt_x_aux_digits 8 _ c hc
    exact (hexdigit_facts d hd).2.2.2.2.2
  · intro hne
    obtain ⟨d, cs, hd0, hd, heq⟩ := fmt_x_aux_head 8 v (by omega) (by norm_num; omega)
    unfold fmt_x
    rw [hmod, heq]
    simp only [List.head?_cons, ne_eq, Option.some.injEq]
    exact hexdigit_ne_zero d hd0 hd
  · intro hz
    subst hz
    rfl

/-- Witness of C17: the largest 32-bit value prints as eight digits. -/
theorem hex_text_fits_buffer_witness :
    4294967295 < 2 ^ 32 ∧
    snprintf_x ADLSIZE 4294967295 = fmt_x 4294967295 ∧
    (fmt_x 4294967295).length = 8 :=
  ⟨by norm_num, (hex_text_fits_buffer 4294967295 (by norm_num)).2.2.1, by decide⟩

end Adler32Cmp
